import Mathlib

/-!
InputUtils: a shallow embedding of `src/app/inpututils.cpp`

The functions of `InputUtils` are translated one by one into Lean
functions with the names they have in the C++ source.

Conventions of the embedding

* `QString` is Lean's `String`; `tr` is the identity (untranslated source
  text), and `tr( "%1 days ago" ).arg( n )` is the decimal rendering of `n`
  followed by the rest of the text.  Where a text is inserted, `QString::arg`
  is the function `arg`, which looks for the place marker of the lowest number.
* `QVariant` holds a boolean, an integer, a text or a map; a `QVariantMap` is
  the list of its entries.
* Functions of Qt and QGIS whose result depends on data outside the program
  (conversion of text to numbers, the file system, the evaluation of
  expressions) are arguments of the functions that call them.
* `qint64` and `int` are `Int` with explicit two's complement wrap-around
  (`wrap64`, `toInt`).
* `QDateTime` is a valid Qt datetime: milliseconds since the epoch in UTC
  (a `qint64`) together with the offset of its own time zone from UTC.
* `double` is `Double`: a finite value is a rational number, next to NaN and
  the two infinities.  Sums, products and quotients are rounded to the nearest
  double by `roundToDouble`; the sign of zero is not represented.
-/

namespace InputUtils

/-! ## Machine integers -/

/-- Two's complement wrap-around of an integer to `qint64`. -/
def wrap64 (x : Int) : Int := (x + 2 ^ 63) % 2 ^ 64 - 2 ^ 63

/-- Conversion of a `qint64` to `int` (32 bits), as in `int period = ...`. -/
def toInt (x : Int) : Int := (x + 2 ^ 31) % 2 ^ 32 - 2 ^ 31

/-! ## QDateTime -/

/-- A valid `QDateTime`.  `msecs` is the number of milliseconds since
1970-01-01T00:00:00 UTC (`toMSecsSinceEpoch()`), `offset` the offset from UTC,
in seconds, of the time zone the datetime is expressed in.  Qt stores the
milliseconds in a `qint64` and admits offsets of at most 14 hours. -/
structure QDateTime where
  msecs : Int
  offset : Int
  msecs_range : -(2 ^ 63) ≤ msecs ∧ msecs < 2 ^ 63
  offset_range : -50400 ≤ offset ∧ offset ≤ 50400

namespace QDateTime

/-- Day number of `date()`: the calendar day, in the datetime's own time zone,
counted from 1970-01-01. -/
def date (t : QDateTime) : Int := (t.msecs + t.offset * 1000) / 86400000

/-- Qt's `QDateTime::daysTo`: `date().daysTo( other.date() )`, the number of
midnights between the two calendar dates, each date taken in the zone of its
own datetime. -/
def daysTo (t other : QDateTime) : Int := other.date - t.date

/-- Qt's `QDateTime::msecsTo`: `other.toMSecsSinceEpoch() - toMSecsSinceEpoch()`,
a difference of absolute times. -/
def msecsTo (t other : QDateTime) : Int := wrap64 (other.msecs - t.msecs)

/-- Qt's `QDateTime::secsTo`: `msecsTo( other ) / 1000`, with the truncating
division of C++. -/
def secsTo (t other : QDateTime) : Int := Int.tdiv (t.msecsTo other) 1000

end QDateTime

/-- The identity: `tr` looks up a translation, the source text is English. -/
def tr (s : String) : String := s

/-- The constant `INVALID_DATETIME_STR`. -/
def INVALID_DATETIME_STR : String := "Invalid datetime"

/-- `InputUtils::formatDateTimeDiff`. -/
def formatDateTimeDiff (tMin tMax : QDateTime) : String :=
  let daysDiff := tMin.daysTo tMax
  -- datetime is invalid
  if daysDiff < 0 then
    INVALID_DATETIME_STR
  -- diff is maximum one day
  else if daysDiff = 0 ∨ daysDiff = 1 then
    let secsDiff := tMin.secsTo tMax
    if secsDiff < 0 then
      INVALID_DATETIME_STR
    else if secsDiff < 60 then
      tr "just now"
    else if secsDiff < 60 * 60 then
      let period := toInt (Int.tdiv secsDiff 60)
      if period > 1 then toString period ++ tr " minutes ago"
      else toString period ++ tr " minute ago"
    else if secsDiff < 60 * 60 * 24 then
      let period := toInt (Int.tdiv secsDiff (60 * 60))
      if period > 1 then toString period ++ tr " hours ago"
      else toString period ++ tr " hour ago"
    else
      if daysDiff > 1 then toString daysDiff ++ tr " days ago"
      else toString daysDiff ++ tr " day ago"
  else if daysDiff < 7 then
    if daysDiff > 1 then toString daysDiff ++ tr " days ago"
    else toString daysDiff ++ tr " day ago"
  else if daysDiff < 31 then
    let period := toInt (Int.tdiv daysDiff 7)
    if period > 1 then toString period ++ tr " weeks ago"
    else toString period ++ tr " week ago"
  else if daysDiff < 365 then
    let period := toInt (Int.tdiv daysDiff 31)
    if period > 1 then toString period ++ tr " months ago"
    else toString period ++ tr " month ago"
  else
    let period := toInt (Int.tdiv daysDiff 365)
    if period > 1 then toString period ++ tr " years ago"
    else toString period ++ tr " year ago"

/-! ## double -/

/-- A C++ `double`: a finite value, which is a rational number, an infinity
or NaN.  The two zeros are one value. -/
inductive Double where
  | fin (q : ℚ)
  | posInf
  | negInf
  | nan
  deriving DecidableEq

/-- The integer nearest to `x`, the even one of the two when `x` lies halfway. -/
def roundHalfEven (x : ℚ) : ℤ :=
  let f := ⌊x⌋
  if x - f < 1 / 2 then f
  else if 1 / 2 < x - f then f + 1
  else if f % 2 = 0 then f else f + 1

/-- Rounding of a real result to a `double`, as IEEE 754 does after every
operation (binary64, round to nearest, ties to even): with
`2 ^ e ≤ |q| < 2 ^ (e + 1)` the last place is `2 ^ (e - 52)`, and `2 ^ (-1074)`
for a subnormal result; `q` becomes the nearest multiple of the last place,
and an infinity when that multiple reaches `2 ^ 1024`. -/
def roundToDouble (q : ℚ) : Double :=
  if q = 0 then Double.fin 0
  else
    let p := max (Int.log 2 |q| - 52) (-1074)
    let r : ℚ := roundHalfEven (q / 2 ^ p) * 2 ^ p
    if 2 ^ 1024 ≤ r then Double.posInf
    else if r ≤ -2 ^ 1024 then Double.negInf
    else Double.fin r

namespace Double

/-- The test `isnan( d )`. -/
def isNaN : Double → Bool
  | nan => true
  | _ => false

/-- The test `isinf( d )`. -/
def isInf : Double → Bool
  | posInf => true
  | negInf => true
  | _ => false

/-- The comparison `a < b` of IEEE 754: false as soon as one side is NaN. -/
def lt : Double → Double → Bool
  | fin a, fin b => decide (a < b)
  | fin _, posInf => true
  | negInf, fin _ => true
  | negInf, posInf => true
  | _, _ => false

/-- The comparison `a > b`. -/
def gt (a b : Double) : Bool := lt b a

/-- The comparison `d == 0`. -/
def eqZero : Double → Bool
  | fin q => decide (q = 0)
  | _ => false

/-- The sum `a + b` of IEEE 754: the sum of two finite values is rounded. -/
def add : Double → Double → Double
  | fin a, fin b => roundToDouble (a + b)
  | nan, _ => nan
  | _, nan => nan
  | posInf, negInf => nan
  | negInf, posInf => nan
  | posInf, _ => posInf
  | negInf, _ => negInf
  | fin _, posInf => posInf
  | fin _, negInf => negInf

/-- The product `a * b` of IEEE 754: the product of two finite values is
rounded. -/
def mul : Double → Double → Double
  | fin a, fin b => roundToDouble (a * b)
  | nan, _ => nan
  | _, nan => nan
  | posInf, posInf => posInf
  | negInf, negInf => posInf
  | posInf, negInf => negInf
  | negInf, posInf => negInf
  | posInf, fin b => if b = 0 then nan else if 0 < b then posInf else negInf
  | negInf, fin b => if b = 0 then nan else if 0 < b then negInf else posInf
  | fin a, posInf => if a = 0 then nan else if 0 < a then posInf else negInf
  | fin a, negInf => if a = 0 then nan else if 0 < a then negInf else posInf

/-- The quotient `a / b` of IEEE 754: the quotient of two finite values is
rounded; a zero divisor counts as `+0`. -/
def div : Double → Double → Double
  | fin a, fin b =>
    if b = 0 then (if a = 0 then nan else if 0 < a then posInf else negInf)
    else roundToDouble (a / b)
  | nan, _ => nan
  | _, nan => nan
  | fin _, posInf => fin 0
  | fin _, negInf => fin 0
  | posInf, fin b => if 0 ≤ b then posInf else negInf
  | negInf, fin b => if 0 ≤ b then negInf else posInf
  | posInf, _ => nan
  | negInf, _ => nan

/-- The quotient `d / 1024.0`.  A division by a power of two lowers the
exponent of a double and leaves its digits as they are, so that it is exact as
long as the result is not subnormal; `bytesToHumanSize`, the one place of this
division, divides values of at least `1e-5`. -/
def div1024 : Double → Double
  | fin a => fin (a / 1024)
  | d => d

end Double

/-! ## QString -/

/-- The parts of a text between the occurrences of the separator, empty parts
kept: `QString::split` with a separator of one character. -/
def splitOnChar (sep : Char) : List Char → List (List Char)
  | [] => [[]]
  | c :: cs =>
    if c = sep then [] :: splitOnChar sep cs
    else
      match splitOnChar sep cs with
      | [] => [[c]]
      | part :: parts => (c :: part) :: parts

/-- Qt's `QString::split( sep )` for a separator of one character, with the
default behaviour of keeping empty parts; the empty text gives one empty
part. -/
def split (s : String) (sep : Char) : List String :=
  (splitOnChar sep s.data).map String.mk

/-- Qt's `QString::startsWith`. -/
def startsWith (s pre : String) : Bool := pre.data.isPrefixOf s.data

/-- Removal of every occurrence of `before`, scanning from the left; `skip`
counts the characters of a found occurrence that are still to be dropped. -/
def removeAllAux (before : List Char) : Nat → List Char → List Char
  | _, [] => []
  | skip + 1, _ :: cs => removeAllAux before skip cs
  | 0, c :: cs =>
    if before.isPrefixOf (c :: cs) then removeAllAux before (before.length - 1) cs
    else c :: removeAllAux before 0 cs

/-- Qt's `QString::replace( before, QString() )`: every occurrence of `before`
is removed, not only the first; an empty `before` leaves the text as it is. -/
def remove (s before : String) : String :=
  if before.data = [] then s else String.mk (removeAllAux before.data 0 s.data)

/-- The last `precision` decimal digits of `n`, most significant first. -/
def fractionDigits (n precision : Nat) : List Char :=
  (List.range precision).map fun i => Nat.digitChar (n / 10 ^ (precision - 1 - i) % 10)

/-- The number of units in the last place of a non-negative value printed with
`precision` decimals: the nearest one, a tie going up. -/
def roundedUnits (q : ℚ) (precision : Nat) : Nat :=
  Int.toNat ⌊q * 10 ^ precision + 1 / 2⌋

/-- Qt's `QString::number( d, 'f', precision )`: fixed notation with
`precision` digits after the decimal point, the last digit rounded to the
nearest with a tie going away from zero. -/
def number (d : Double) (precision : Nat) : String :=
  match d with
  | Double.nan => "nan"
  | Double.posInf => "inf"
  | Double.negInf => "-inf"
  | Double.fin q =>
    let n := roundedUnits |q| precision
    (if q < 0 then "-" else "") ++ toString (n / 10 ^ precision) ++
      (if precision = 0 then "" else "." ++ String.mk (fractionDigits n precision))

/-- The value of a list of decimal digits, `none` when a character is not a
digit. -/
def digitsValue (cs : List Char) : Option Nat :=
  cs.foldl (fun acc c =>
    match acc with
    | some v => if c.isDigit then some (v * 10 + (c.toNat - 48)) else none
    | none => none) (some 0)

/-- The value of an unsigned decimal numeral `digits` or `digits.digits` with
at least one digit. -/
def unsignedDecimal (cs : List Char) : Option ℚ :=
  match splitOnChar '.' cs with
  | [ip] =>
    if ip = [] then none else (digitsValue ip).map fun v => (v : ℚ)
  | [ip, fp] =>
    if ip = [] ∧ fp = [] then none
    else
      match digitsValue ip, digitsValue fp with
      | some v, some w => some ((v : ℚ) + (w : ℚ) / 10 ^ fp.length)
      | _, _ => none
  | _ => none

/-- A conversion of text to `double` in the manner of `QString::toDouble`, for
plain decimal numerals with an optional sign; any other text counts as a failed
conversion, for which `QString::toDouble` returns 0.  The functions below take
the conversion as an argument, and their theorems hold for every conversion;
this one serves to evaluate them on concrete texts. -/
def decimalToDouble (s : String) : Double :=
  match s.data with
  | '-' :: cs => match unsignedDecimal cs with
    | some q => Double.fin (-q)
    | none => Double.fin 0
  | '+' :: cs => match unsignedDecimal cs with
    | some q => Double.fin q
    | none => Double.fin 0
  | cs => match unsignedDecimal cs with
    | some q => Double.fin q
    | none => Double.fin 0

/-! ## Conversions of rationals and coordinates -/

/-- `InputUtils::ratherZeroThanNaN`. -/
def ratherZeroThanNaN (d : Double) : Double :=
  if d.isNaN then Double.fin 0 else d

/-- `InputUtils::convertRationalNumber`; `toDouble` is `QString::toDouble`. -/
def convertRationalNumber (toDouble : String → Double) (rationalValue : String) : Double :=
  if rationalValue.data = [] then Double.nan
  else
    let number := split rationalValue '/'
    match number with
    | [n, d] =>
      let numerator := toDouble n
      let denominator := toDouble d
      if denominator.eqZero then denominator
      else numerator.div denominator
    | _ => Double.nan

/-- `InputUtils::convertCoordinateString`; `toDouble` is `QString::toDouble`. -/
def convertCoordinateString (toDouble : String → Double) (rationalValue : String) : Double :=
  let values := split rationalValue ','
  match values with
  | [v0, v1, v2] =>
    let degrees := ratherZeroThanNaN (convertRationalNumber toDouble v0)
    let minutes := ratherZeroThanNaN (convertRationalNumber toDouble v1)
    let seconds := ratherZeroThanNaN (convertRationalNumber toDouble v2)
    (degrees.add (minutes.div (Double.fin 60))).add (seconds.div (Double.fin 3600))
  | _ => Double.fin 0

/-! ## Byte sizes -/

/-- `InputUtils::bytesToHumanSize`. -/
def bytesToHumanSize (bytes : Double) : String :=
  let precision := 1
  if bytes.lt (Double.fin (1 / 100000)) then
    "0.0"
  else if bytes.lt (Double.fin (1024 * 1024)) then
    number bytes.div1024 precision ++ " KB"
  else if bytes.lt (Double.fin (1024 * 1024 * 1024)) then
    number bytes.div1024.div1024 precision ++ " MB"
  else if bytes.lt (Double.fin (1024 * 1024 * 1024 * 1024)) then
    number bytes.div1024.div1024.div1024 precision ++ " GB"
  else
    number bytes.div1024.div1024.div1024.div1024 precision ++ " TB"

/-! ## Relative paths -/

/-- `InputUtils::getRelativePath`.  The state of the file system enters through
`fileExists` (`QFileInfo( p ).exists()`) and `canonicalPath`
(`QDir( p ).canonicalPath()`). -/
def getRelativePath (fileExists : String → Bool) (canonicalPath : String → String)
    (path prefixPath : String) : String :=
  let filePrefix := "file://"
  let modPath := if startsWith path filePrefix then remove path filePrefix else path
  if prefixPath.data = [] then modPath
  -- Do not use a canonical path for non-existing path
  else if !fileExists path then
    if !(prefixPath.data = []) && startsWith modPath prefixPath then
      remove modPath prefixPath
    else ""
  else
    let canonical := canonicalPath modPath
    let prefixCanonicalPath := canonicalPath prefixPath ++ "/"
    if decide (prefixCanonicalPath.length > 1) && startsWith canonical prefixCanonicalPath then
      remove canonical prefixCanonicalPath
    else ""

/-! ## Distances -/

/-- The values of `QgsUnitTypes::DistanceUnit`. -/
inductive DistanceUnit where
  | DistanceMeters
  | DistanceKilometers
  | DistanceFeet
  | DistanceNauticalMiles
  | DistanceYards
  | DistanceMiles
  | DistanceDegrees
  | DistanceCentimeters
  | DistanceMillimeters
  | DistanceUnknownUnit
  deriving DecidableEq, Repr

/-- The values of `QgsUnitTypes::SystemOfMeasurement`. -/
inductive SystemOfMeasurement where
  | UnknownSystem
  | MetricSystem
  | ImperialSystem
  | USCSSystem
  deriving DecidableEq, Repr

open DistanceUnit SystemOfMeasurement

/-- Modelled from the spec: the length of a distance unit in metres, a
constant of the QGIS library (`qgsunittypes.cpp`) that is not under src/.  The
unit ladders of the spec are those of the metric units (1 km = 1000 m,
1 m = 100 cm = 1000 mm) and of the international foot (0.3048 m), yard
(0.9144 m), statute mile (1609.344 m) and nautical mile (1852 m); a degree is
taken at 111319.49079327358 m.  Each constant is the double nearest to its
decimal numeral.  The unknown unit has no length. -/
def unitInMeters : DistanceUnit → Option Double
  | DistanceMeters => some (Double.fin 1)
  | DistanceKilometers => some (Double.fin 1000)
  | DistanceFeet => some (roundToDouble (3048 / 10000))
  | DistanceNauticalMiles => some (Double.fin 1852)
  | DistanceYards => some (roundToDouble (9144 / 10000))
  | DistanceMiles => some (roundToDouble (1609344 / 1000))
  | DistanceDegrees => some (roundToDouble (11131949079327358 / 100000000000))
  | DistanceCentimeters => some (roundToDouble (1 / 100))
  | DistanceMillimeters => some (roundToDouble (1 / 1000))
  | DistanceUnknownUnit => none

/-- Modelled from the spec: `QgsUnitTypes::fromUnitToUnitFactor`, which belongs
to the QGIS library and is not under src/: the number of `toUnit` in one
`fromUnit`, the quotient of the two lengths as a double, and 1 when one of the
two is the unknown unit. -/
def fromUnitToUnitFactor (fromUnit toUnit : DistanceUnit) : Double :=
  match unitInMeters fromUnit, unitInMeters toUnit with
  | some a, some b => a.div b
  | _, _ => Double.fin 1

/-- `InputUtils::formatToMetricDistance`; the pair is
`( destDistance, destUnits )`. -/
def formatToMetricDistance (srcDistance : Double) (srcUnits : DistanceUnit) :
    Double × DistanceUnit :=
  let dist := srcDistance.mul (fromUnitToUnitFactor srcUnits DistanceMillimeters)
  if dist.lt (Double.fin 0) then
    (Double.fin 0, DistanceMillimeters)
  else
    let mmToKm := fromUnitToUnitFactor DistanceKilometers DistanceMillimeters
    if dist.gt mmToKm then
      (dist.div mmToKm, DistanceKilometers)
    else
      let mmToM := fromUnitToUnitFactor DistanceMeters DistanceMillimeters
      if dist.gt mmToM then
        (dist.div mmToM, DistanceMeters)
      else
        let mmToCm := fromUnitToUnitFactor DistanceCentimeters DistanceMillimeters
        if dist.gt mmToCm then
          (dist.div mmToCm, DistanceCentimeters)
        else
          (dist, DistanceMillimeters)

/-- `InputUtils::formatToImperialDistance`. -/
def formatToImperialDistance (srcDistance : Double) (srcUnits : DistanceUnit) :
    Double × DistanceUnit :=
  let dist := srcDistance.mul (fromUnitToUnitFactor srcUnits DistanceFeet)
  if dist.lt (Double.fin 0) then
    (Double.fin 0, DistanceFeet)
  else
    let feetToMile := fromUnitToUnitFactor DistanceMiles DistanceFeet
    if dist.gt feetToMile then
      (dist.div feetToMile, DistanceMiles)
    else
      let feetToYard := fromUnitToUnitFactor DistanceYards DistanceFeet
      if dist.gt feetToYard then
        (dist.div feetToYard, DistanceYards)
      else
        (dist, DistanceFeet)

/-- `InputUtils::formatToUSCSDistance`. -/
def formatToUSCSDistance (srcDistance : Double) (srcUnits : DistanceUnit) :
    Double × DistanceUnit :=
  let dist := srcDistance.mul (fromUnitToUnitFactor srcUnits DistanceFeet)
  if dist.lt (Double.fin 0) then
    (Double.fin 0, DistanceFeet)
  else
    let feetToMile := fromUnitToUnitFactor DistanceNauticalMiles DistanceFeet
    if dist.gt feetToMile then
      (dist.div feetToMile, DistanceNauticalMiles)
    else
      let feetToYard := fromUnitToUnitFactor DistanceYards DistanceFeet
      if dist.gt feetToYard then
        (dist.div feetToYard, DistanceYards)
      else
        (dist, DistanceFeet)

/-- `InputUtils::humanReadableDistance`; the four systems of measurement are
all the values of the enumeration, so that the final `Q_ASSERT( false )` has no
case. -/
def humanReadableDistance (srcDistance : Double) (srcUnits : DistanceUnit)
    (destSystem : SystemOfMeasurement) : Double × DistanceUnit :=
  if destSystem = MetricSystem ∨ destSystem = UnknownSystem then
    formatToMetricDistance srcDistance srcUnits
  else if destSystem = ImperialSystem then
    formatToImperialDistance srcDistance srcUnits
  else
    formatToUSCSDistance srcDistance srcUnits

/-- The ladder of a foot-based system in the words of the spec, as a property
of a function `f` with its large unit and the number of feet in that unit: for
the length `F` in feet, the double product of the source distance and the unit
factor, `f` yields the large unit with value `F` divided by the number of feet
in it if `F` is greater than that number, else yards `F / 3` if `F > 3`, else
feet `F`, each quotient rounded to a double, and 0 feet for a negative `F`,
minus infinity included; plus infinity stays infinite, in the large unit, and
NaN stays NaN, in feet. -/
def IsFeetLadder (f : Double → DistanceUnit → Double × DistanceUnit)
    (largeUnit : DistanceUnit) (feetInLargeUnit : ℚ) : Prop :=
  ∀ (srcDistance : Double) (srcUnits : DistanceUnit),
    (srcDistance.mul (fromUnitToUnitFactor srcUnits DistanceFeet) = Double.negInf →
      f srcDistance srcUnits = (Double.fin 0, DistanceFeet)) ∧
    (srcDistance.mul (fromUnitToUnitFactor srcUnits DistanceFeet) = Double.posInf →
      f srcDistance srcUnits = (Double.posInf, largeUnit)) ∧
    (srcDistance.mul (fromUnitToUnitFactor srcUnits DistanceFeet) = Double.nan →
      f srcDistance srcUnits = (Double.nan, DistanceFeet)) ∧
    ∀ F : ℚ, srcDistance.mul (fromUnitToUnitFactor srcUnits DistanceFeet) = Double.fin F →
      (F < 0 → f srcDistance srcUnits = (Double.fin 0, DistanceFeet)) ∧
      (feetInLargeUnit < F →
        f srcDistance srcUnits = (roundToDouble (F / feetInLargeUnit), largeUnit)) ∧
      (0 ≤ F → F ≤ feetInLargeUnit → 3 < F →
        f srcDistance srcUnits = (roundToDouble (F / 3), DistanceYards)) ∧
      (0 ≤ F → F ≤ 3 → f srcDistance srcUnits = (Double.fin F, DistanceFeet))

/-! ## Relative-time phrases -/

/-- A relative-time phrase in the words of the spec: the count, the unit in
the singular exactly when the count is 1, and `ago`. -/
def relativePhrase (n : Int) (unit : String) : String :=
  toString n ++ " " ++ unit ++ (if n = 1 then "" else "s") ++ " ago"

/-! ## The contribution of one component of a coordinate -/

/-- The value a component of a degrees,minutes,seconds text stands for, in the
words of the spec: a malformed component (empty, or not exactly one `/`) and a
component with a zero denominator stand for 0, a component `n/d` with a
non-zero denominator for the quotient of the two doubles. -/
inductive ComponentValue (toDouble : String → Double) : String → Double → Prop where
  | malformed (p : String) (h : p.data = [] ∨ p.data.count '/' ≠ 1) :
      ComponentValue toDouble p (Double.fin 0)
  | zeroDenominator (n d : String) (hn : '/' ∉ n.data) (hd : '/' ∉ d.data)
      (hz : toDouble d = Double.fin 0) :
      ComponentValue toDouble (n ++ "/" ++ d) (Double.fin 0)
  | quotient (n d : String) (a b : ℚ) (hn : '/' ∉ n.data) (hd : '/' ∉ d.data)
      (ha : toDouble n = Double.fin a) (hb : toDouble d = Double.fin b) (hne : b ≠ 0) :
      ComponentValue toDouble (n ++ "/" ++ d) ((Double.fin a).div (Double.fin b))

/-! ## QString::arg -/

/-- The value of a decimal digit, `none` for another character (`QChar::digitValue`
on the digits `0` to `9`). -/
def digitValue (c : Char) : Option Nat :=
  if c.isDigit then some (c.toNat - 48) else none

/-- The number written by the one or two digits at the head of the text, and
how many digits it takes. -/
def escapeNumber : List Char → Option (Nat × Nat)
  | [] => none
  | d :: rest =>
    match digitValue d with
    | none => none
    | some a =>
      match rest with
      | [] => some (a, 1)
      | e :: _ =>
        match digitValue e with
        | some b => some (10 * a + b, 2)
        | none => some (a, 1)

/-- The place marker that starts right after a `%`: an optional `L`, then one
or two digits.  The result is the number of the marker and the count of
characters it takes after the `%`. -/
def escapeAt : List Char → Option (Nat × Nat)
  | 'L' :: rest =>
    match escapeNumber rest with
    | some (n, len) => some (n, len + 1)
    | none => none
  | cs => escapeNumber cs

/-- The lowest number among the place markers of a text, scanning from the
left; `skip` counts the characters of a found marker still to be passed. -/
def minEscape : Nat → List Char → Option Nat
  | _, [] => none
  | skip + 1, _ :: cs => minEscape skip cs
  | 0, c :: cs =>
    if c = '%' then
      match escapeAt cs with
      | some (n, len) =>
        match minEscape len cs with
        | some m => some (min n m)
        | none => some n
      | none => minEscape 0 cs
    else minEscape 0 cs

/-- The text with every place marker of number `lowest` replaced by `a`;
`drop` counts the characters of a replaced marker still to be dropped, `copy`
those of another marker still to be copied. -/
def replaceEscapes (lowest : Nat) (a : List Char) : Nat → Nat → List Char → List Char
  | _, _, [] => []
  | drop + 1, copy, _ :: cs => replaceEscapes lowest a drop copy cs
  | 0, copy + 1, c :: cs => c :: replaceEscapes lowest a 0 copy cs
  | 0, 0, c :: cs =>
    if c = '%' then
      match escapeAt cs with
      | some (n, len) =>
        if n = lowest then a ++ replaceEscapes lowest a len 0 cs
        else c :: replaceEscapes lowest a 0 len cs
      | none => c :: replaceEscapes lowest a 0 0 cs
    else c :: replaceEscapes lowest a 0 0 cs

/-- Qt's `QString::arg( a )`: every occurrence of the place marker with the
lowest number is replaced by `a`; a text without a place marker is returned as
it is.  A chain `s.arg( a ).arg( b )` scans the result of the first call again,
the inserted text `a` included. -/
def arg (s a : String) : String :=
  match minEscape 0 s.data with
  | none => s
  | some lowest => String.mk (replaceEscapes lowest a.data 0 0 s.data)

/-- `QString::contains( "/" )` and alike, for one character. -/
def containsChar (s : String) (c : Char) : Bool := s.data.contains c

/-- `InputUtils::formatProjectName`. -/
def formatProjectName (fullProjectName : String) : String :=
  if containsChar fullProjectName '/' then
    let list := split fullProjectName '/'
    if (list.getD 0 "").data = [] then
      arg "<b>%1</b>" (list.getD 1 "")
    else
      arg (arg "%1/<b>%2</b>" (list.getD 0 "")) (list.getD 1 "")
  else
    arg "<b>%1</b>" fullProjectName

/-! ## QVariant and QVariantMap -/

/-- A `QVariant` of one of the types the configuration of an editor widget
holds here: no value, a boolean, an integer, a text or a nested map. -/
inductive QVariant where
  | invalid
  | bool (b : Bool)
  | int (n : Int)
  | string (s : String)
  | map (m : List (String × QVariant))

/-- A `QVariantMap`: the entries of the map, each key once. -/
abbrev QVariantMap := List (String × QVariant)

namespace QVariant

/-- Qt's `QVariant::toMap`: the map of a map variant, else the empty map. -/
def toMap : QVariant → QVariantMap
  | map m => m
  | _ => []

/-- Qt's `QVariant::toString`. -/
def toQString : QVariant → String
  | string s => s
  | int n => toString n
  | bool b => if b then "true" else "false"
  | _ => ""

/-- Qt's `QVariant::toInt`; `strToInt` is `QString::toInt`, which gives 0 for
a text that is not a number. -/
def toInt (strToInt : String → Int) : QVariant → Int
  | int n => n
  | bool b => if b then 1 else 0
  | string s => strToInt s
  | _ => 0

/-- Qt's `QVariant::toBool`: a text is true unless its lower-case form is
empty, `0` or `false`. -/
def toBool : QVariant → Bool
  | bool b => b
  | int n => decide (n ≠ 0)
  | string s =>
    let lower := s.data.map Char.toLower
    !(lower = [] || lower = ['0'] || lower = ['f', 'a', 'l', 's', 'e'])
  | _ => false

end QVariant

/-- `QVariantMap::value( key )`: the value stored under the key, an invalid
variant when the key is absent. -/
def mapValue (m : QVariantMap) (key : String) : QVariant :=
  match m.find? (fun e => e.1 == key) with
  | some e => e.2
  | none => QVariant.invalid

/-- `QVariantMap::contains( key )`. -/
def mapContains (m : QVariantMap) (key : String) : Bool :=
  m.any (fun e => e.1 == key)

/-- `QVariantMap::insert( key, value )`: the value under the key is replaced,
or the entry added. -/
def mapInsert (m : QVariantMap) (key : String) (value : QVariant) : QVariantMap :=
  (key, value) :: m.filter (fun e => !(e.1 == key))

/-- `QVariantMap::unite( other )` on maps without a common key; the entries of
`other` come first in a lookup. -/
def mapUnite (m other : QVariantMap) : QVariantMap := other ++ m

/-! ## Paths of attachments -/

/-- `InputUtils::resolveTargetDir`; `evaluateExpression` stands for
`InputUtils::evaluateExpression( pair, activeProject, · )`, the value of a QGIS
expression for the feature at hand. -/
def resolveTargetDir (evaluateExpression : String → String) (homePath : String)
    (config : QVariantMap) : String :=
  let collection := (mapValue config "PropertyCollection").toMap
  let props := (mapValue collection "properties").toMap
  let expression :=
    if !props.isEmpty then
      let propertyRootPath := (mapValue props "propertyRootPath").toMap
      (if mapContains propertyRootPath "expression"
        then mapValue propertyRootPath "expression" else QVariant.string "").toQString
    else ""
  if !(expression.data = []) then
    evaluateExpression expression
  else
    let defaultRoot := (mapValue config "DefaultRoot").toQString
    if defaultRoot.data = [] then homePath else defaultRoot

/-- `InputUtils::resolvePrefixForRelativePath`. -/
def resolvePrefixForRelativePath (relativeStorageMode : Int) (homePath targetDir : String) :
    String :=
  if relativeStorageMode = 1 then homePath
  else if relativeStorageMode = 2 then targetDir
  else ""

/-- `InputUtils::getAbsolutePath`. -/
def getAbsolutePath (path prefixPath : String) : String :=
  if prefixPath.data = [] then path else arg (arg "%1/%2" prefixPath) path

/-- `InputUtils::resolvePath`; `strToInt` is `QString::toInt` and
`evaluateExpression` the evaluation of an expression for the feature. -/
def resolvePath (strToInt : String → Int) (evaluateExpression : String → String)
    (path homePath : String) (config : QVariantMap) : String :=
  let relativeStorageMode := (mapValue config "RelativeStorage").toInt strToInt
  let targetDir := resolveTargetDir evaluateExpression homePath config
  let prefixToRelativePath := resolvePrefixForRelativePath relativeStorageMode homePath targetDir
  getAbsolutePath path prefixToRelativePath

/-! ## Editor widgets -/

/-- The values of `QVariant::Type` a field can have. -/
inductive FieldType where
  | Invalid
  | Bool
  | Int
  | UInt
  | LongLong
  | ULongLong
  | Double
  | String
  | Date
  | Time
  | DateTime
  | ByteArray
  | StringList
  | List
  | Map
  deriving DecidableEq, Repr

/-- A `QgsField` as far as these functions read it: its name, its alias (`aliasName`) and
its data type. -/
structure QgsField where
  name : String
  aliasName : String
  type : FieldType

/-- Modelled from the spec: `QgsField::isNumeric` of the QGIS library, which is
not under src/: a field is numeric when its type is a floating-point or an
integer type. -/
def QgsField.isNumeric (f : QgsField) : Bool :=
  f.type = FieldType.Double ∨ f.type = FieldType.Int ∨ f.type = FieldType.UInt ∨
    f.type = FieldType.LongLong ∨ f.type = FieldType.ULongLong

/-- Modelled from the spec: `QgsField::isDateOrTime` of the QGIS library, which
is not under src/: the type is a date, a time or a date with time. -/
def QgsField.isDateOrTime (f : QgsField) : Bool :=
  f.type = FieldType.Date ∨ f.type = FieldType.Time ∨ f.type = FieldType.DateTime

/-- `QString::contains( needle, Qt::CaseInsensitive )` for a needle of
lower-case ASCII letters: the needle occurs in the text with its letters put
in lower case. -/
def containsInsensitive (s needle : String) : Bool :=
  (s.data.map Char.toLower).tails.any fun t => needle.data.isPrefixOf t

/-- `InputUtils::getEditorComponentSource`, the text of the returned `QUrl`;
`variantIs v s` is the comparison `v == QStringLiteral( s )` of a variant with
a text. -/
def getEditorComponentSource (variantIs : QVariant → String → Bool) (widgetName : String)
    (config : QVariantMap) (field : QgsField) : String :=
  let path := "../editor/input%1.qml"
  if widgetName = "range" then
    if mapContains config "Style" then
      if variantIs (mapValue config "Style") "Slider" then
        arg path "rangeslider"
      else if variantIs (mapValue config "Style") "SpinBox" then
        arg path "rangeeditable"
      else arg path "textedit"
    else arg path "textedit"
  else if containsInsensitive field.name "qrcode" ∨ containsInsensitive field.aliasName "qrcode" then
    arg path "qrcodereader"
  else if widgetName = "textedit" then
    if (mapValue config "IsMultiline").toBool then arg path "texteditmultiline"
    else arg path "textedit"
  else
    let supportedWidgets := ["textedit", "valuemap", "valuerelation", "checkbox",
      "externalresource", "datetime", "range", "relation", "relationreference"]
    if supportedWidgets.contains widgetName then arg path widgetName
    else arg path "textedit"

/-- The comparison `v == QStringLiteral( s )` when the variant holds a text:
the two texts are equal.  For a variant of another type Qt converts before it
compares; such variants differ from every text here.  The theorems on
`getEditorComponentSource` hold for every comparison, this one serves for the
examples. -/
def variantIsText : QVariant → String → Bool
  | QVariant.string t, s => t == s
  | _, _ => false

/-- A `QgsEditorWidgetSetup`: the type of the widget and its configuration. -/
structure QgsEditorWidgetSetup where
  type : String
  config : QVariantMap

/-- `InputUtils::getEditorWidgetSetup( field, widgetType, additionalArgs )`.
`datetimeFormat` is `QgsDateTimeFieldFormatter::DATETIME_FORMAT` and
`propertyCollection` the variant of an empty `QgsPropertyCollection`, both of
the QGIS library. -/
def getEditorWidgetSetupFor (datetimeFormat : String) (propertyCollection : QVariant)
    (field : QgsField) (widgetType : String) (additionalArgs : QVariantMap) :
    QgsEditorWidgetSetup :=
  if field.name = "fid" then ⟨"Hidden", []⟩
  else if widgetType.data = [] then ⟨"TextEdit", []⟩
  else
    let config := mapUnite [] additionalArgs
    let config :=
      if widgetType = "TextEdit" then
        mapInsert (mapInsert config "isMultiline" (QVariant.bool false))
          "UseHtml" (QVariant.bool false)
      else if widgetType = "DateTime" then
        mapInsert (mapInsert config "field_format" (QVariant.string datetimeFormat))
          "display_format" (QVariant.string datetimeFormat)
      else if widgetType = "Range" then
        mapInsert (mapInsert (mapInsert (mapInsert (mapInsert config
          "Style" (QVariant.string "SpinBox"))
          "Precision" (QVariant.string "0"))
          "Min" (QVariant.string (toString (-(2 ^ 31) : Int))))
          "Max" (QVariant.string (toString (2 ^ 31 - 1 : Int))))
          "Step" (QVariant.int 1)
      else if widgetType = "ExternalResource" then
        mapInsert (mapInsert (mapInsert (mapInsert config
          "RelativeStorage" (QVariant.string "1"))
          "StorageMode" (QVariant.string "0"))
          "PropertyCollection" (QVariant.map []))
          "PropertyCollection" propertyCollection
      else if widgetType = "RelationReference" then
        mapInsert config "AllowNULL" (QVariant.bool true)
      else config
    ⟨widgetType, config⟩

/-- `InputUtils::getEditorWidgetSetup( field )`; the calls leave out the third
argument, whose default is an empty map. -/
def getEditorWidgetSetup (datetimeFormat : String) (propertyCollection : QVariant)
    (field : QgsField) : QgsEditorWidgetSetup :=
  if field.isNumeric then
    getEditorWidgetSetupFor datetimeFormat propertyCollection field "Range" []
  else if field.isDateOrTime then
    getEditorWidgetSetupFor datetimeFormat propertyCollection field "DateTime" []
  else if field.type = FieldType.Bool then
    getEditorWidgetSetupFor datetimeFormat propertyCollection field "CheckBox" []
  else
    getEditorWidgetSetupFor datetimeFormat propertyCollection field "TextEdit" []

/-! # Theorems -/

/-! ## Machine integers: no wrap-around inside the range -/

theorem wrap64_of_range {x : Int} (h1 : -(2 ^ 63) ≤ x) (h2 : x < 2 ^ 63) : wrap64 x = x := by
  unfold wrap64
  omega

theorem toInt_of_range {x : Int} (h1 : -(2 ^ 31) ≤ x) (h2 : x < 2 ^ 31) : toInt x = x := by
  unfold toInt
  omega

/-- The calendar-day difference of two datetimes is far inside `qint64`. -/
theorem daysTo_bounds (a b : QDateTime) :
    -213503982336 ≤ a.daysTo b ∧ a.daysTo b ≤ 213503982336 := by
  have ha := a.msecs_range
  have hb := b.msecs_range
  have hoa := a.offset_range
  have hob := b.offset_range
  unfold QDateTime.daysTo QDateTime.date
  omega

/-- In one time zone the calendar date does not decrease with time. -/
theorem daysTo_nonneg_of_le (a b : QDateTime) (ho : a.offset = b.offset)
    (h : a.msecs ≤ b.msecs) : 0 ≤ a.daysTo b := by
  unfold QDateTime.daysTo QDateTime.date
  omega

theorem daysTo_nonpos_of_le (a b : QDateTime) (ho : a.offset = b.offset)
    (h : b.msecs ≤ a.msecs) : a.daysTo b ≤ 0 := by
  unfold QDateTime.daysTo QDateTime.date
  omega

/-- A text that ends in `ago` is not the text `just now`. -/
theorem append_ago_ne_just_now (s : String) (t : String)
    (ht : t.data.getLast? = some 'o') : s ++ t ≠ "just now" := by
  intro h
  have h2 : (s ++ t).data.getLast? = some 'w' := by rw [h]; rfl
  rw [String.data_append] at h2
  cases htd : t.data with
  | nil => rw [htd] at ht; simp at ht
  | cons c cs =>
    rw [htd] at ht h2
    rw [List.getLast?_append_cons] at h2
    rw [ht] at h2
    exact absurd h2 (by decide)

/-- C1 (as amended): when `tMax` is at least 0 and fewer than 60 seconds after
`tMin`, `formatDateTimeDiff` returns "just now" for every pair of datetimes
with the same offset from UTC, the pairs that straddle midnight included; for
datetimes of any offsets it does so exactly when the calendar-day difference
`daysTo` is 0 or 1. -/
theorem formatDateTimeDiff_just_now_same_zone (tMin tMax : QDateTime)
    (h0 : tMin.msecs ≤ tMax.msecs) (h1 : tMax.msecs - tMin.msecs < 60000) :
    (tMin.offset = tMax.offset → formatDateTimeDiff tMin tMax = "just now") ∧
    (formatDateTimeDiff tMin tMax = "just now" ↔
      (tMin.daysTo tMax = 0 ∨ tMin.daysTo tMax = 1)) := by
  have hw : tMin.msecsTo tMax = tMax.msecs - tMin.msecs := by
    unfold QDateTime.msecsTo
    exact wrap64_of_range (by omega) (by omega)
  have hs : tMin.secsTo tMax = (tMax.msecs - tMin.msecs) / 1000 := by
    unfold QDateTime.secsTo
    rw [hw, Int.tdiv_eq_ediv (by omega) (by omega)]
  have hs0 : ¬ tMin.secsTo tMax < 0 := by rw [hs]; omega
  have hs1 : tMin.secsTo tMax < 60 := by rw [hs]; omega
  have key : (tMin.daysTo tMax = 0 ∨ tMin.daysTo tMax = 1) →
      formatDateTimeDiff tMin tMax = "just now" := by
    intro hd
    have hneg : ¬ tMin.daysTo tMax < 0 := by omega
    simp only [formatDateTimeDiff, hneg, hd, hs0, hs1, if_true, if_false, tr]
  refine ⟨?_, ?_, key⟩
  · intro ho
    apply key
    have := daysTo_nonneg_of_le tMin tMax ho h0
    unfold QDateTime.daysTo QDateTime.date at *
    omega
  · intro h
    by_contra hd
    by_cases hneg : tMin.daysTo tMax < 0
    · simp only [formatDateTimeDiff, hneg, if_true, INVALID_DATETIME_STR] at h
      exact absurd h (by decide)
    · simp only [formatDateTimeDiff, hneg, hd, if_false, tr] at h
      split_ifs at h <;> exact append_ago_ne_just_now _ _ (by rfl) h

/-- C1 fails as stated: 1970-01-01T00:00:10+01:00 and the instant 30 seconds
later expressed in UTC (1969-12-31T23:00:40Z) have the calendar-day difference
-1, and the result is "Invalid datetime". -/
theorem formatDateTimeDiff_mixed_zone_counterexample :
    ((⟨-3590000, 3600, by decide, by decide⟩ : QDateTime).msecs ≤
        (⟨-3560000, 0, by decide, by decide⟩ : QDateTime).msecs ∧
      (⟨-3560000, 0, by decide, by decide⟩ : QDateTime).msecs -
        (⟨-3590000, 3600, by decide, by decide⟩ : QDateTime).msecs = 30000) ∧
    formatDateTimeDiff ⟨-3590000, 3600, by decide, by decide⟩
      ⟨-3560000, 0, by decide, by decide⟩ = "Invalid datetime" ∧
    formatDateTimeDiff ⟨-3590000, 3600, by decide, by decide⟩
      ⟨-3560000, 0, by decide, by decide⟩ ≠ "just now" := by
  decide

/-- C1 at 23:59:59 and 30 seconds later, on the next calendar day. -/
theorem formatDateTimeDiff_just_now_witness :
    formatDateTimeDiff ⟨86399000, 0, by decide, by decide⟩
      ⟨86429000, 0, by decide, by decide⟩ = "just now" :=
  (formatDateTimeDiff_just_now_same_zone ⟨86399000, 0, by decide, by decide⟩
    ⟨86429000, 0, by decide, by decide⟩ (by decide) (by decide)).1 rfl

/-- On one calendar day of one zone, a datetime earlier by a second or more
has a negative `secsTo`. -/
theorem secsTo_neg_of_same_day (tMin tMax : QDateTime) (ho : tMin.offset = tMax.offset)
    (hd : tMin.daysTo tMax = 0) (h : tMax.msecs + 1000 ≤ tMin.msecs) :
    tMin.secsTo tMax < 0 := by
  have hw : tMin.msecsTo tMax = -(tMin.msecs - tMax.msecs) := by
    unfold QDateTime.msecsTo
    unfold QDateTime.daysTo QDateTime.date at hd
    rw [wrap64_of_range (by omega) (by omega)]
    omega
  unfold QDateTime.secsTo
  rw [hw, Int.neg_tdiv, Int.tdiv_eq_ediv (by omega) (by omega)]
  omega

/-- The truncating division makes `secsTo` zero for a datetime earlier by less
than a second. -/
theorem secsTo_zero_of_subsecond (tMin tMax : QDateTime)
    (h : tMax.msecs < tMin.msecs) (h2 : tMin.msecs < tMax.msecs + 1000) :
    tMin.secsTo tMax = 0 := by
  have hw : tMin.msecsTo tMax = -(tMin.msecs - tMax.msecs) := by
    unfold QDateTime.msecsTo
    rw [wrap64_of_range (by omega) (by omega)]
    omega
  unfold QDateTime.secsTo
  rw [hw, Int.neg_tdiv, Int.tdiv_eq_ediv (by omega) (by omega)]
  omega

/-- C8: with `d = tMin.daysTo( tMax )`, `formatDateTimeDiff` returns "d days
ago" for 2 ≤ d < 7, weeks with count ⌊d/7⌋ for 7 ≤ d < 31, months with count
⌊d/31⌋ for 31 ≤ d < 365 and years with count ⌊d/365⌋ for d ≥ 365, in the
singular exactly when the count is 1. -/
theorem formatDateTimeDiff_day_buckets (tMin tMax : QDateTime) :
    ((2 ≤ tMin.daysTo tMax ∧ tMin.daysTo tMax < 7) →
      formatDateTimeDiff tMin tMax = toString (tMin.daysTo tMax) ++ " days ago") ∧
    ((7 ≤ tMin.daysTo tMax ∧ tMin.daysTo tMax < 31) →
      formatDateTimeDiff tMin tMax =
        if tMin.daysTo tMax / 7 = 1 then "1 week ago"
        else toString (tMin.daysTo tMax / 7) ++ " weeks ago") ∧
    ((31 ≤ tMin.daysTo tMax ∧ tMin.daysTo tMax < 365) →
      formatDateTimeDiff tMin tMax =
        if tMin.daysTo tMax / 31 = 1 then "1 month ago"
        else toString (tMin.daysTo tMax / 31) ++ " months ago") ∧
    (365 ≤ tMin.daysTo tMax →
      formatDateTimeDiff tMin tMax =
        if tMin.daysTo tMax / 365 = 1 then "1 year ago"
        else toString (tMin.daysTo tMax / 365) ++ " years ago") := by
  have hb := daysTo_bounds tMin tMax
  generalize hdd : tMin.daysTo tMax = d at hb ⊢
  have hp7 : 0 ≤ d → d < 365 → toInt (Int.tdiv d 7) = d / 7 := by
    intro hd hlt
    rw [Int.tdiv_eq_ediv hd (by decide)]
    exact toInt_of_range (by omega) (by omega)
  have hp31 : 0 ≤ d → d < 365 → toInt (Int.tdiv d 31) = d / 31 := by
    intro hd hlt
    rw [Int.tdiv_eq_ediv hd (by decide)]
    exact toInt_of_range (by omega) (by omega)
  have hp365 : 0 ≤ d → toInt (Int.tdiv d 365) = d / 365 := by
    intro hd
    rw [Int.tdiv_eq_ediv hd (by decide)]
    exact toInt_of_range (by omega) (by omega)
  refine ⟨?_, ?_, ?_, ?_⟩
  · rintro ⟨h1, h2⟩
    have c1 : ¬ d < 0 := by omega
    have c2 : ¬ (d = 0 ∨ d = 1) := by omega
    have c3 : d > 1 := by omega
    simp only [formatDateTimeDiff, hdd, c1, c2, c3, h2, if_true, if_false, tr]
  · rintro ⟨h1, h2⟩
    have c1 : ¬ d < 0 := by omega
    have c2 : ¬ (d = 0 ∨ d = 1) := by omega
    have c3 : ¬ d < 7 := by omega
    simp only [formatDateTimeDiff, hdd, c1, c2, c3, h2, if_true, if_false, tr,
      hp7 (by omega) (by omega)]
    by_cases hq : d / 7 = 1
    · simp only [hq, if_true]; rfl
    · have : d / 7 > 1 := by omega
      simp only [hq, this, if_true, if_false]
  · rintro ⟨h1, h2⟩
    have c1 : ¬ d < 0 := by omega
    have c2 : ¬ (d = 0 ∨ d = 1) := by omega
    have c3 : ¬ d < 7 := by omega
    have c4 : ¬ d < 31 := by omega
    simp only [formatDateTimeDiff, hdd, c1, c2, c3, c4, h2, if_true, if_false, tr,
      hp31 (by omega) (by omega)]
    by_cases hq : d / 31 = 1
    · simp only [hq, if_true]; rfl
    · have : d / 31 > 1 := by omega
      simp only [hq, this, if_true, if_false]
  · intro h1
    have c1 : ¬ d < 0 := by omega
    have c2 : ¬ (d = 0 ∨ d = 1) := by omega
    have c3 : ¬ d < 7 := by omega
    have c4 : ¬ d < 31 := by omega
    have c5 : ¬ d < 365 := by omega
    simp only [formatDateTimeDiff, hdd, c1, c2, c3, c4, c5, if_true, if_false, tr,
      hp365 (by omega)]
    by_cases hq : d / 365 = 1
    · simp only [hq, if_true]; rfl
    · have : d / 365 > 1 := by omega
      simp only [hq, this, if_true, if_false]

/-- C8 at day differences 3, 13, 100 and 800. -/
theorem formatDateTimeDiff_day_buckets_witness :
    formatDateTimeDiff ⟨0, 0, by decide, by decide⟩ ⟨3 * 86400000, 0, by decide, by decide⟩
      = "3 days ago" ∧
    formatDateTimeDiff ⟨0, 0, by decide, by decide⟩ ⟨13 * 86400000, 0, by decide, by decide⟩
      = "1 week ago" ∧
    formatDateTimeDiff ⟨0, 0, by decide, by decide⟩ ⟨100 * 86400000, 0, by decide, by decide⟩
      = "3 months ago" ∧
    formatDateTimeDiff ⟨0, 0, by decide, by decide⟩ ⟨800 * 86400000, 0, by decide, by decide⟩
      = "2 years ago" :=
  ⟨(formatDateTimeDiff_day_buckets ⟨0, 0, by decide, by decide⟩
      ⟨3 * 86400000, 0, by decide, by decide⟩).1 (by decide),
   (formatDateTimeDiff_day_buckets ⟨0, 0, by decide, by decide⟩
      ⟨13 * 86400000, 0, by decide, by decide⟩).2.1 (by decide),
   (formatDateTimeDiff_day_buckets ⟨0, 0, by decide, by decide⟩
      ⟨100 * 86400000, 0, by decide, by decide⟩).2.2.1 (by decide),
   (formatDateTimeDiff_day_buckets ⟨0, 0, by decide, by decide⟩
      ⟨800 * 86400000, 0, by decide, by decide⟩).2.2.2 (by decide)⟩

/-! ## Splitting -/

theorem splitOnChar_ne_nil (sep : Char) (l : List Char) : splitOnChar sep l ≠ [] := by
  cases l with
  | nil => simp [splitOnChar]
  | cons c cs =>
    unfold splitOnChar
    split_ifs
    · simp
    · split <;> simp

theorem splitOnChar_of_not_mem (sep : Char) (l : List Char) (h : sep ∉ l) :
    splitOnChar sep l = [l] := by
  induction l with
  | nil => rfl
  | cons c cs ih =>
    have hc : ¬ c = sep := fun e => h (by simp [e])
    have hcs : sep ∉ cs := fun e => h (by simp [e])
    simp [splitOnChar, hc, ih hcs]

theorem splitOnChar_append_sep (sep : Char) (a b : List Char) (h : sep ∉ a) :
    splitOnChar sep (a ++ sep :: b) = a :: splitOnChar sep b := by
  induction a with
  | nil => simp [splitOnChar]
  | cons c cs ih =>
    have hc : ¬ c = sep := fun e => h (by simp [e])
    have hcs : sep ∉ cs := fun e => h (by simp [e])
    simp [splitOnChar, hc, ih hcs]

/-- The number of parts is the number of separators plus one. -/
theorem length_splitOnChar (sep : Char) (l : List Char) :
    (splitOnChar sep l).length = l.count sep + 1 := by
  induction l with
  | nil => rfl
  | cons c cs ih =>
    by_cases hc : c = sep
    · subst hc
      simp [splitOnChar, ih]
    · have hne := splitOnChar_ne_nil sep cs
      have hcount : (c :: cs).count sep = cs.count sep := by
        rw [List.count_cons]
        simp [hc]
      rw [hcount]
      cases hs : splitOnChar sep cs with
      | nil => exact absurd hs hne
      | cons p ps =>
        rw [hs] at ih
        simp only [splitOnChar, hc, hs, if_false]
        simpa using ih

theorem length_split (s : String) (sep : Char) :
    (split s sep).length = s.data.count sep + 1 := by
  simp [split, length_splitOnChar]

theorem split_two (sep : Char) (a b : String) (ha : sep ∉ a.data) (hb : sep ∉ b.data) :
    split (a ++ String.singleton sep ++ b) sep = [a, b] := by
  have hd : (a ++ String.singleton sep ++ b).data = a.data ++ sep :: b.data := by
    simp [String.data_append, String.singleton]
  simp [split, hd, splitOnChar_append_sep sep _ _ ha, splitOnChar_of_not_mem sep _ hb]

theorem split_three (sep : Char) (a b c : String) (ha : sep ∉ a.data) (hb : sep ∉ b.data)
    (hc : sep ∉ c.data) :
    split (a ++ String.singleton sep ++ b ++ String.singleton sep ++ c) sep = [a, b, c] := by
  have hd : (a ++ String.singleton sep ++ b ++ String.singleton sep ++ c).data
      = a.data ++ sep :: (b.data ++ sep :: c.data) := by
    simp [String.data_append, String.singleton]
  simp [split, hd, splitOnChar_append_sep sep _ _ ha, splitOnChar_append_sep sep _ _ hb,
    splitOnChar_of_not_mem sep _ hc]

/-- A text that is empty or has not exactly one `/` is converted to NaN. -/
theorem convertRationalNumber_malformed (toDouble : String → Double) (s : String)
    (h : s.data = [] ∨ s.data.count '/' ≠ 1) :
    convertRationalNumber toDouble s = Double.nan := by
  unfold convertRationalNumber
  split_ifs with he
  · rfl
  · have hl : (split s '/').length ≠ 2 := by
      rw [length_split]
      rcases h with h | h
      · exact absurd h he
      · omega
    dsimp only
    generalize split s '/' = l at hl
    rcases l with _ | ⟨a, _ | ⟨b, _ | ⟨c, t⟩⟩⟩ <;> simp at hl ⊢

/-! ## C3, C4, C5: rationals and coordinates -/

/-- C3: for every text `n/d` with exactly one `/` whose denominator part is
converted to zero, `convertRationalNumber` yields the denominator, 0, whatever
the numerator part is; the result is neither NaN nor infinite. -/
theorem convertRationalNumber_zero_denominator (toDouble : String → Double) (n d : String)
    (hn : '/' ∉ n.data) (hd : '/' ∉ d.data) (hz : toDouble d = Double.fin 0) :
    convertRationalNumber toDouble (n ++ "/" ++ d) = toDouble d ∧
    convertRationalNumber toDouble (n ++ "/" ++ d) = Double.fin 0 ∧
    (convertRationalNumber toDouble (n ++ "/" ++ d)).isNaN = false ∧
    (convertRationalNumber toDouble (n ++ "/" ++ d)).isInf = false := by
  have hs : split (n ++ "/" ++ d) '/' = [n, d] := split_two '/' n d hn hd
  have hne : ¬ (n ++ "/" ++ d).data = [] := by
    simp [String.data_append]
  have hr : convertRationalNumber toDouble (n ++ "/" ++ d) = Double.fin 0 := by
    simp only [convertRationalNumber, hne, hs, hz, if_false]
    simp [Double.eqZero]
  rw [hr, hz]
  exact ⟨rfl, rfl, rfl, rfl⟩

/-- C3 at the text `1/0`. -/
theorem convertRationalNumber_zero_denominator_witness :
    convertRationalNumber decimalToDouble "1/0" = Double.fin 0 :=
  (convertRationalNumber_zero_denominator decimalToDouble "1" "0" (by decide) (by decide)
    (by simp [decimalToDouble, unsignedDecimal, splitOnChar, digitsValue])).2.1

/-- C4 fails as stated: on the empty text, on a text without `/` and on a
text with two `/`, `convertRationalNumber` returns NaN, which is not zero. -/
theorem convertRationalNumber_invalid_counterexample :
    convertRationalNumber decimalToDouble "" = Double.nan ∧
    convertRationalNumber decimalToDouble "" ≠ Double.fin 0 ∧
    convertRationalNumber decimalToDouble "7" = Double.nan ∧
    convertRationalNumber decimalToDouble "1/2/3" = Double.nan := by
  refine ⟨?_, ?_, ?_, ?_⟩
  · simp [convertRationalNumber]
  · simp [convertRationalNumber]
  · simp [convertRationalNumber, split, splitOnChar]
  · simp [convertRationalNumber, split, splitOnChar]

/-- C4 (as amended): for every text that is empty or has not exactly one `/`,
`convertRationalNumber` returns NaN, not zero; `ratherZeroThanNaN` turns that
result into 0. -/
theorem convertRationalNumber_invalid_is_nan (toDouble : String → Double) (s : String)
    (h : s.data = [] ∨ s.data.count '/' ≠ 1) :
    convertRationalNumber toDouble s = Double.nan ∧
    convertRationalNumber toDouble s ≠ Double.fin 0 ∧
    ratherZeroThanNaN (convertRationalNumber toDouble s) = Double.fin 0 := by
  rw [convertRationalNumber_malformed toDouble s h]
  exact ⟨rfl, by simp, rfl⟩

/-- C4 (as amended) at the text `1/2/3`. -/
theorem convertRationalNumber_invalid_is_nan_witness :
    convertRationalNumber decimalToDouble "1/2/3" = Double.nan :=
  (convertRationalNumber_invalid_is_nan decimalToDouble "1/2/3" (Or.inr (by decide))).1

/-- C5: `convertCoordinateString` returns 0 for every text that has not
exactly two `,` (it does not split into three parts), and also for every text
of three parts each of which is empty or has not exactly one `/`; that result
is not NaN. -/
theorem convertCoordinateString_invalid (toDouble : String → Double) :
    (∀ s : String, s.data.count ',' ≠ 2 →
      convertCoordinateString toDouble s = Double.fin 0) ∧
    (∀ a b c : String, ',' ∉ a.data → ',' ∉ b.data → ',' ∉ c.data →
      (a.data = [] ∨ a.data.count '/' ≠ 1) →
      (b.data = [] ∨ b.data.count '/' ≠ 1) →
      (c.data = [] ∨ c.data.count '/' ≠ 1) →
      convertCoordinateString toDouble (a ++ "," ++ b ++ "," ++ c) = Double.fin 0 ∧
      (convertCoordinateString toDouble (a ++ "," ++ b ++ "," ++ c)).isNaN = false) := by
  constructor
  · intro s h
    have hl : (split s ',').length ≠ 3 := by
      rw [length_split]
      omega
    unfold convertCoordinateString
    dsimp only
    generalize split s ',' = l at hl
    rcases l with _ | ⟨a, _ | ⟨b, _ | ⟨c, _ | ⟨d, t⟩⟩⟩⟩ <;> simp at hl ⊢
  · intro a b c ha hb hc ma mb mc
    have hs : split (a ++ "," ++ b ++ "," ++ c) ',' = [a, b, c] := split_three ',' a b c ha hb hc
    have hr : convertCoordinateString toDouble (a ++ "," ++ b ++ "," ++ c) = Double.fin 0 := by
      simp only [convertCoordinateString, hs, convertRationalNumber_malformed toDouble _ ma,
        convertRationalNumber_malformed toDouble _ mb,
        convertRationalNumber_malformed toDouble _ mc]
      simp [ratherZeroThanNaN, Double.isNaN, Double.div, Double.add, roundToDouble]
    rw [hr]
    exact ⟨rfl, rfl⟩

/-- C5 at a text of two parts and at the three malformed parts `x`, the empty
text and `1/2/3`. -/
theorem convertCoordinateString_invalid_witness :
    convertCoordinateString decimalToDouble "12/1,30/1" = Double.fin 0 ∧
    convertCoordinateString decimalToDouble ("x" ++ "," ++ "" ++ "," ++ "1/2/3") = Double.fin 0 :=
  ⟨(convertCoordinateString_invalid decimalToDouble).1 "12/1,30/1" (by decide),
   ((convertCoordinateString_invalid decimalToDouble).2 "x" "" "1/2/3" (by decide) (by decide)
      (by decide) (Or.inr (by decide)) (Or.inl rfl) (Or.inr (by decide))).1⟩

/-! ## C2: byte sizes -/

theorem roundedUnits_near (x : ℚ) (hx : 0 ≤ x) :
    (roundedUnits x 1 : ℚ) / 10 - x ≤ 1 / 20 ∧ x - (roundedUnits x 1 : ℚ) / 10 < 1 / 20 := by
  unfold roundedUnits
  have hpos : (0 : ℤ) ≤ ⌊x * 10 ^ 1 + 1 / 2⌋ := Int.floor_nonneg.mpr (by positivity)
  have hcast : ((Int.toNat ⌊x * 10 ^ 1 + 1 / 2⌋ : ℕ) : ℚ) = ((⌊x * 10 ^ 1 + 1 / 2⌋ : ℤ) : ℚ) := by
    have := Int.toNat_of_nonneg hpos
    exact_mod_cast this
  rw [hcast]
  have h1 := Int.floor_le (x * 10 ^ 1 + 1 / 2)
  have h2 := Int.lt_floor_add_one (x * 10 ^ 1 + 1 / 2)
  constructor <;> linarith

theorem number_one_decimal (x : ℚ) (hx : 0 ≤ x) :
    number (Double.fin x) 1 =
      toString (roundedUnits x 1 / 10) ++ "." ++
        String.singleton (Nat.digitChar (roundedUnits x 1 % 10)) := by
  have hn : ¬ x < 0 := not_lt.mpr hx
  simp only [number, hn, abs_of_nonneg hx, if_false, fractionDigits]
  simp [String.singleton, String.append_assoc]
  rfl

/-- C2: for every byte count `b` with 1e-5 ≤ b < 1024 * 1024,
`bytesToHumanSize` returns `b / 1024` in fixed notation with one decimal,
followed by " KB": the integer part, a point and exactly one digit, the printed
value being the nearest tenth to `b / 1024`. -/
theorem bytesToHumanSize_KB (b : ℚ) (h1 : 1 / 100000 ≤ b) (h2 : b < 1024 * 1024) :
    bytesToHumanSize (Double.fin b) = number (Double.fin (b / 1024)) 1 ++ " KB" ∧
    number (Double.fin (b / 1024)) 1 =
      toString (roundedUnits (b / 1024) 1 / 10) ++ "." ++
        String.singleton (Nat.digitChar (roundedUnits (b / 1024) 1 % 10)) ∧
    roundedUnits (b / 1024) 1 % 10 < 10 ∧
    (roundedUnits (b / 1024) 1 : ℚ) / 10 - b / 1024 ≤ 1 / 20 ∧
    b / 1024 - (roundedUnits (b / 1024) 1 : ℚ) / 10 < 1 / 20 := by
  have hb : 0 ≤ b / 1024 := by
    have : 0 ≤ b := le_trans (by norm_num) h1
    positivity
  refine ⟨?_, number_one_decimal _ hb, Nat.mod_lt _ (by decide), roundedUnits_near _ hb⟩
  have c1 : ¬ b < 1 / 100000 := not_lt.mpr h1
  simp [bytesToHumanSize, Double.lt, Double.div1024, c1, h2]
  intro h
  linarith

/-- C2 at 2048 bytes: "2.0 KB". -/
theorem bytesToHumanSize_KB_witness : bytesToHumanSize (Double.fin 2048) = "2.0 KB" := by
  have h := (bytesToHumanSize_KB 2048 (by norm_num) (by norm_num)).1
  rw [h]
  have hr : roundedUnits (2048 / 1024) 1 = 20 := by
    unfold roundedUnits
    norm_num
    rfl
  have hx : (0 : ℚ) ≤ 2048 / 1024 := by norm_num
  rw [number_one_decimal _ hx, hr]
  decide

/-! ## Rounding to double -/

/-- A value closer than one half to an integer is rounded to it. -/
theorem roundHalfEven_of_near (x : ℚ) (m : ℤ) (h : |x - m| < 1 / 2) : roundHalfEven x = m := by
  have h' := abs_lt.mp h
  by_cases hc : (m : ℚ) ≤ x
  · have hf : ⌊x⌋ = m := by
      rw [Int.floor_eq_iff]
      constructor
      · exact hc
      · linarith [h'.2]
    simp only [roundHalfEven, hf]
    rw [if_pos (by linarith [h'.2])]
  · have hc' : x < m := not_le.mp hc
    have hf : ⌊x⌋ = m - 1 := by
      rw [Int.floor_eq_iff]
      push_cast
      constructor
      · linarith [h'.1]
      · linarith
    simp only [roundHalfEven, hf]
    push_cast
    rw [if_neg (by linarith [h'.1]), if_pos (by linarith [h'.1])]
    ring

/-- The binary exponent of a value between two powers of two. -/
theorem log_two_eq (q : ℚ) (e : ℤ) (h1 : (2 : ℚ) ^ e ≤ |q|) (h2 : |q| < (2 : ℚ) ^ (e + 1)) :
    Int.log 2 |q| = e := by
  have hpos : (0 : ℚ) < |q| := lt_of_lt_of_le (by positivity) h1
  have a1 : e ≤ Int.log 2 |q| := by
    rw [← Int.zpow_le_iff_le_log (by norm_num) hpos]
    exact_mod_cast h1
  have a2 : Int.log 2 |q| < e + 1 := by
    rw [← Int.lt_zpow_iff_log_lt (by norm_num) hpos]
    exact_mod_cast h2
  omega

/-- Evaluation of a rounding from the exponent `e`, the last place `2 ^ p` and
the nearest multiple `m`. -/
theorem roundToDouble_eq (q : ℚ) (e p m : ℤ) (h1 : (2 : ℚ) ^ e ≤ |q|)
    (h2 : |q| < (2 : ℚ) ^ (e + 1)) (hp : p = max (e - 52) (-1074))
    (hm : |q / 2 ^ p - m| < 1 / 2) (hr : |(m : ℚ) * 2 ^ p| < 2 ^ 1024) :
    roundToDouble q = Double.fin (m * 2 ^ p) := by
  have hq : q ≠ 0 := by
    intro h0
    rw [h0, abs_zero] at h1
    exact absurd h1 (not_le.mpr (by positivity))
  have hr' := abs_lt.mp hr
  simp only [roundToDouble, hq, if_false, log_two_eq q e h1 h2, ← hp,
    roundHalfEven_of_near _ m hm]
  rw [if_neg (by linarith [hr'.2]), if_neg (by linarith [hr'.1])]

/-- Evaluation of the rounding of a positive value. -/
theorem roundToDouble_pos (q : ℚ) (e p m : ℤ) (h1 : (2 : ℚ) ^ e ≤ q)
    (h2 : q < (2 : ℚ) ^ (e + 1)) (hp : p = max (e - 52) (-1074))
    (hm : |q / 2 ^ p - m| < 1 / 2) (hr : |(m : ℚ) * 2 ^ p| < 2 ^ 1024) :
    roundToDouble q = Double.fin (m * 2 ^ p) := by
  have hpos : 0 < q := lt_of_lt_of_le (by positivity) h1
  exact roundToDouble_eq q e p m (by rwa [abs_of_pos hpos]) (by rwa [abs_of_pos hpos]) hp hm hr

/-- The rounding of a value `m * 2 ^ p` with a mantissa below `2 ^ 53` leaves
the value as it is, up to the overflow to an infinity. -/
theorem roundToDouble_dyadic_cases (m p : ℤ) (hm : |m| < 2 ^ 53) (hp : -1074 ≤ p) :
    roundToDouble (m * 2 ^ p) =
      if (2 : ℚ) ^ 1024 ≤ m * 2 ^ p then Double.posInf
      else if (m : ℚ) * 2 ^ p ≤ -2 ^ 1024 then Double.negInf
      else Double.fin (m * 2 ^ p) := by
  by_cases h0 : (m : ℚ) * 2 ^ p = 0
  · rw [h0]
    simp only [roundToDouble, if_true]
    rw [if_neg (by norm_num), if_neg (by norm_num)]
  · have hq : (0 : ℚ) < |(m : ℚ) * 2 ^ p| := abs_pos.mpr h0
    set e := Int.log 2 |(m : ℚ) * 2 ^ p| with he
    have hlt : |(m : ℚ) * 2 ^ p| < (2 : ℚ) ^ (53 + p) := by
      rw [abs_mul, abs_of_pos (by positivity : (0 : ℚ) < 2 ^ p), zpow_add₀ (by norm_num)]
      apply mul_lt_mul_of_pos_right _ (by positivity)
      have h2 : ((|m| : ℤ) : ℚ) < 2 ^ 53 := by exact_mod_cast hm
      rw [Int.cast_abs] at h2
      rw [show (2 : ℚ) ^ (53 : ℤ) = 2 ^ (53 : ℕ) from by norm_num]
      exact h2
    have he1 : e < 53 + p := by
      rw [he, ← Int.lt_zpow_iff_log_lt (by norm_num) hq]
      exact_mod_cast hlt
    have hp' : max (e - 52) (-1074) ≤ p := by
      apply max_le <;> omega
    obtain ⟨k, hk⟩ := Int.eq_ofNat_of_zero_le (sub_nonneg.mpr hp')
    have hdiv : (m : ℚ) * 2 ^ p / 2 ^ (max (e - 52) (-1074)) = ((m * 2 ^ k : ℤ) : ℚ) := by
      have : p = max (e - 52) (-1074) + k := by omega
      rw [this, zpow_add₀ (by norm_num)]
      push_cast
      rw [zpow_natCast]
      field_simp
      ring
    have hround : roundHalfEven ((m : ℚ) * 2 ^ p / 2 ^ (max (e - 52) (-1074))) = m * 2 ^ k := by
      rw [hdiv]
      exact roundHalfEven_of_near _ _ (by simp)
    have hback : ((m * 2 ^ k : ℤ) : ℚ) * 2 ^ (max (e - 52) (-1074)) = (m : ℚ) * 2 ^ p := by
      rw [← hdiv]
      field_simp
    simp only [roundToDouble, h0, if_false, ← he, hround, hback]

/-- A value `m * 2 ^ p` with a mantissa below `2 ^ 53` is a double: it is
rounded to itself. -/
theorem roundToDouble_dyadic (m p : ℤ) (hm : |m| < 2 ^ 53) (hp : -1074 ≤ p)
    (hr : |(m : ℚ) * 2 ^ p| < 2 ^ 1024) :
    roundToDouble (m * 2 ^ p) = Double.fin (m * 2 ^ p) := by
  have hr' := abs_lt.mp hr
  rw [roundToDouble_dyadic_cases m p hm hp, if_neg (by linarith [hr'.2]),
    if_neg (by linarith [hr'.1])]

/-- A product that is `m * 2 ^ p` and reaches `2 ^ 1024` overflows to plus
infinity. -/
theorem mul_overflow (a b : ℚ) (m p : ℤ) (h : a * b = m * 2 ^ p) (hm : |m| < 2 ^ 53)
    (hp : -1074 ≤ p) (hr : (2 : ℚ) ^ 1024 ≤ m * 2 ^ p) :
    (Double.fin a).mul (Double.fin b) = Double.posInf := by
  show roundToDouble (a * b) = Double.posInf
  rw [h, roundToDouble_dyadic_cases m p hm hp, if_pos hr]

/-- The division of a double `m * 2 ^ p` by 1024 lowers the exponent by 10 and
is exact: `Double.div1024` is the rounded quotient as long as the result is not
subnormal. -/
theorem div1024_eq_div (m p : ℤ) (hm : |m| < 2 ^ 53) (hp : -1064 ≤ p)
    (hr : |(m : ℚ) * 2 ^ (p - 10)| < 2 ^ 1024) :
    (Double.fin (m * 2 ^ p)).div (Double.fin 1024) = (Double.fin (m * 2 ^ p)).div1024 := by
  have e : (m : ℚ) * 2 ^ p / 1024 = m * 2 ^ (p - 10) := by
    rw [zpow_sub₀ (by norm_num)]
    norm_num
    ring
  simp only [Double.div, Double.div1024]
  rw [if_neg (by norm_num), e, roundToDouble_dyadic m (p - 10) hm (by omega) hr]

/-- An integer below `2 ^ 53` in magnitude is a double. -/
theorem roundToDouble_int (n : ℤ) (h : |n| < 2 ^ 53) :
    roundToDouble (n : ℚ) = Double.fin n := by
  have := roundToDouble_dyadic n 0 h (by decide) (by
    simp only [zpow_zero, mul_one]
    have h1 : ((|n| : ℤ) : ℚ) < ((2 ^ 53 : ℤ) : ℚ) := by exact_mod_cast h
    rw [Int.cast_abs] at h1
    refine lt_trans h1 ?_
    norm_num)
  simpa using this

/-- A rounding is never NaN. -/
theorem roundToDouble_isNaN (q : ℚ) : (roundToDouble q).isNaN = false := by
  unfold roundToDouble
  dsimp only
  split_ifs <;> rfl

/-- The constants of the unit table. -/
theorem double_millimeter :
    roundToDouble (1 / 1000) = Double.fin (1152921504606847 / 2 ^ 60) := by
  rw [roundToDouble_pos (1 / 1000) (-10) (-62) 4611686018427388 (by norm_num) (by norm_num)
    (by decide) (by norm_num [abs_lt]) (by norm_num [abs_lt])]
  norm_num

theorem double_centimeter :
    roundToDouble (1 / 100) = Double.fin (5764607523034235 / 2 ^ 59) := by
  rw [roundToDouble_pos (1 / 100) (-7) (-59) 5764607523034235 (by norm_num) (by norm_num)
    (by decide) (by norm_num [abs_lt]) (by norm_num [abs_lt])]
  norm_num

theorem double_foot :
    roundToDouble (3048 / 10000) = Double.fin (5490788665690109 / 2 ^ 54) := by
  rw [roundToDouble_pos (3048 / 10000) (-2) (-54) 5490788665690109 (by norm_num) (by norm_num)
    (by decide) (by norm_num [abs_lt]) (by norm_num [abs_lt])]
  norm_num

theorem double_yard :
    roundToDouble (9144 / 10000) = Double.fin (8236182998535163 / 2 ^ 53) := by
  rw [roundToDouble_pos (9144 / 10000) (-1) (-53) 8236182998535163 (by norm_num) (by norm_num)
    (by decide) (by norm_num [abs_lt]) (by norm_num [abs_lt])]
  norm_num

theorem double_mile :
    roundToDouble (1609344 / 1000) = Double.fin (1769492441091539 / 2 ^ 40) := by
  rw [roundToDouble_pos (1609344 / 1000) 10 (-42) 7077969764366156 (by norm_num) (by norm_num)
    (by decide) (by norm_num [abs_lt]) (by norm_num [abs_lt])]
  norm_num

/-- The rounding of a value that norm_num shows equal to an integer. -/
theorem roundToDouble_of_eq_int (q : ℚ) (n : ℤ) (h : q = n) (hn : |n| < 2 ^ 53) :
    roundToDouble q = Double.fin n := by
  rw [h]
  exact roundToDouble_int n hn

/-! ## C9, C10: unit ladders -/

theorem factor_km_mm :
    fromUnitToUnitFactor DistanceKilometers DistanceMillimeters = Double.fin (10 ^ 6) := by
  simp only [fromUnitToUnitFactor, unitInMeters, double_millimeter, Double.div]
  rw [if_neg (by norm_num)]
  rw [roundToDouble_pos _ 19 (-33) (10 ^ 6 * 2 ^ 33) (by norm_num) (by norm_num)
    (by decide) (by norm_num [abs_lt]) (by norm_num [abs_lt])]
  norm_num

theorem factor_m_mm :
    fromUnitToUnitFactor DistanceMeters DistanceMillimeters = Double.fin 1000 := by
  simp only [fromUnitToUnitFactor, unitInMeters, double_millimeter, Double.div]
  rw [if_neg (by norm_num)]
  rw [roundToDouble_pos _ 9 (-43) (1000 * 2 ^ 43) (by norm_num) (by norm_num)
    (by decide) (by norm_num [abs_lt]) (by norm_num [abs_lt])]
  norm_num

theorem factor_cm_mm :
    fromUnitToUnitFactor DistanceCentimeters DistanceMillimeters = Double.fin 10 := by
  simp only [fromUnitToUnitFactor, unitInMeters, double_millimeter, double_centimeter, Double.div]
  rw [if_neg (by norm_num)]
  rw [roundToDouble_of_eq_int _ 10 (by norm_num) (by decide)]
  norm_num

theorem factor_mm_mm :
    fromUnitToUnitFactor DistanceMillimeters DistanceMillimeters = Double.fin 1 := by
  simp only [fromUnitToUnitFactor, unitInMeters, double_millimeter, Double.div]
  rw [if_neg (by norm_num)]
  rw [roundToDouble_of_eq_int _ 1 (by norm_num) (by decide)]
  norm_num

theorem factor_mile_feet :
    fromUnitToUnitFactor DistanceMiles DistanceFeet = Double.fin 5280 := by
  simp only [fromUnitToUnitFactor, unitInMeters, double_mile, double_foot, Double.div]
  rw [if_neg (by norm_num)]
  rw [roundToDouble_pos _ 12 (-40) (5280 * 2 ^ 40) (by norm_num) (by norm_num)
    (by decide) (by norm_num [abs_lt]) (by norm_num [abs_lt])]
  norm_num

theorem factor_nautical_feet :
    fromUnitToUnitFactor DistanceNauticalMiles DistanceFeet =
      Double.fin (6680759628087769 / 2 ^ 40) := by
  simp only [fromUnitToUnitFactor, unitInMeters, double_foot, Double.div]
  rw [if_neg (by norm_num)]
  rw [roundToDouble_pos _ 12 (-40) 6680759628087769 (by norm_num) (by norm_num)
    (by decide) (by norm_num [abs_lt]) (by norm_num [abs_lt])]
  norm_num

theorem factor_yard_feet :
    fromUnitToUnitFactor DistanceYards DistanceFeet = Double.fin 3 := by
  simp only [fromUnitToUnitFactor, unitInMeters, double_yard, double_foot, Double.div]
  rw [if_neg (by norm_num)]
  rw [roundToDouble_pos _ 1 (-51) (3 * 2 ^ 51) (by norm_num) (by norm_num)
    (by decide) (by norm_num [abs_lt]) (by norm_num [abs_lt])]
  norm_num

theorem factor_feet_feet :
    fromUnitToUnitFactor DistanceFeet DistanceFeet = Double.fin 1 := by
  simp only [fromUnitToUnitFactor, unitInMeters, double_foot, Double.div]
  rw [if_neg (by norm_num)]
  rw [roundToDouble_of_eq_int _ 1 (by norm_num) (by decide)]
  norm_num

theorem factor_m_feet :
    fromUnitToUnitFactor DistanceMeters DistanceFeet =
      Double.fin (7387794664321679 / 2 ^ 51) := by
  simp only [fromUnitToUnitFactor, unitInMeters, double_foot, Double.div]
  rw [if_neg (by norm_num)]
  rw [roundToDouble_pos _ 1 (-51) 7387794664321679 (by norm_num) (by norm_num)
    (by decide) (by norm_num [abs_lt]) (by norm_num [abs_lt])]
  norm_num

/-- The rounding of a value that is `m * 2 ^ p` with a mantissa below `2 ^ 53`. -/
theorem roundToDouble_of_eq_dyadic (q : ℚ) (m p : ℤ) (h : q = m * 2 ^ p)
    (hm : |m| < 2 ^ 53) (hp : -1074 ≤ p) (hr : |(m : ℚ) * 2 ^ p| < 2 ^ 1024) :
    roundToDouble q = Double.fin (m * 2 ^ p) := by
  rw [h]
  exact roundToDouble_dyadic m p hm hp hr

/-- The product of two doubles whose exact product is an integer. -/
theorem mul_eq_int (a b : ℚ) (n : ℤ) (h : a * b = n) (hn : |n| < 2 ^ 53) :
    (Double.fin a).mul (Double.fin b) = Double.fin n :=
  roundToDouble_of_eq_int _ n h hn

/-- The product of two doubles whose exact product is `m * 2 ^ p`. -/
theorem mul_eq_dyadic (a b : ℚ) (m p : ℤ) (h : a * b = m * 2 ^ p)
    (hm : |m| < 2 ^ 53) (hp : -1074 ≤ p) (hr : |(m : ℚ) * 2 ^ p| < 2 ^ 1024) :
    (Double.fin a).mul (Double.fin b) = Double.fin (m * 2 ^ p) :=
  roundToDouble_of_eq_dyadic _ m p h hm hp hr

/-- The quotient of two doubles whose exact quotient is `m * 2 ^ p`. -/
theorem div_eq_dyadic (a b : ℚ) (m p : ℤ) (hb : b ≠ 0) (h : a / b = m * 2 ^ p)
    (hm : |m| < 2 ^ 53) (hp : -1074 ≤ p) (hr : |(m : ℚ) * 2 ^ p| < 2 ^ 1024) :
    (Double.fin a).div (Double.fin b) = Double.fin (m * 2 ^ p) := by
  simp only [Double.div, hb, if_false]
  rw [h]
  exact roundToDouble_dyadic m p hm hp hr

/-- A chain of four comparisons on a finite double, with thresholds `k`, `m`
and `c` that are not zero. -/
theorem ladder_fin {α : Type} (l k m c : ℚ) (hk : k ≠ 0) (hm : m ≠ 0) (hc : c ≠ 0)
    (u0 u1 u2 u3 : α) :
    (if (Double.fin l).lt (Double.fin 0) then (Double.fin 0, u0)
     else if (Double.fin l).gt (Double.fin k) then ((Double.fin l).div (Double.fin k), u1)
     else if (Double.fin l).gt (Double.fin m) then ((Double.fin l).div (Double.fin m), u2)
     else if (Double.fin l).gt (Double.fin c) then ((Double.fin l).div (Double.fin c), u3)
     else (Double.fin l, u0)) =
      if l < 0 then (Double.fin 0, u0)
      else if k < l then (roundToDouble (l / k), u1)
      else if m < l then (roundToDouble (l / m), u2)
      else if c < l then (roundToDouble (l / c), u3)
      else (Double.fin l, u0) := by
  simp only [Double.lt, Double.gt, Double.div, decide_eq_true_eq, hk, hm, hc, if_false]

/-- The chain of comparisons on plus infinity. -/
theorem ladder_posInf {α : Type} (k m c : ℚ) (hk : 0 ≤ k) (u0 u1 u2 u3 : α) :
    (if Double.posInf.lt (Double.fin 0) then (Double.fin 0, u0)
     else if Double.posInf.gt (Double.fin k) then (Double.posInf.div (Double.fin k), u1)
     else if Double.posInf.gt (Double.fin m) then (Double.posInf.div (Double.fin m), u2)
     else if Double.posInf.gt (Double.fin c) then (Double.posInf.div (Double.fin c), u3)
     else (Double.posInf, u0)) = (Double.posInf, u1) := by
  simp [Double.lt, Double.gt, Double.div, hk]

/-- The chain of comparisons on NaN. -/
theorem ladder_nan {α : Type} (k m c : ℚ) (u0 u1 u2 u3 : α) :
    (if Double.nan.lt (Double.fin 0) then (Double.fin 0, u0)
     else if Double.nan.gt (Double.fin k) then (Double.nan.div (Double.fin k), u1)
     else if Double.nan.gt (Double.fin m) then (Double.nan.div (Double.fin m), u2)
     else if Double.nan.gt (Double.fin c) then (Double.nan.div (Double.fin c), u3)
     else (Double.nan, u0)) = (Double.nan, u0) := by
  simp [Double.lt, Double.gt]

/-- The metric ladder on a finite length `l` in millimetres. -/
theorem formatToMetricDistance_fin (srcDistance : Double) (srcUnits : DistanceUnit) (l : ℚ)
    (hL : srcDistance.mul (fromUnitToUnitFactor srcUnits DistanceMillimeters) = Double.fin l) :
    formatToMetricDistance srcDistance srcUnits =
      if l < 0 then (Double.fin 0, DistanceMillimeters)
      else if 10 ^ 6 < l then (roundToDouble (l / 10 ^ 6), DistanceKilometers)
      else if 1000 < l then (roundToDouble (l / 1000), DistanceMeters)
      else if 10 < l then (roundToDouble (l / 10), DistanceCentimeters)
      else (Double.fin l, DistanceMillimeters) := by
  have e := ladder_fin l (10 ^ 6) 1000 10 (by norm_num) (by norm_num) (by norm_num)
    DistanceMillimeters DistanceKilometers DistanceMeters DistanceCentimeters
  rw [← e]
  simp only [formatToMetricDistance, factor_km_mm, factor_m_mm, factor_cm_mm, hL]

/-- C9: for the destination systems Metric and Unknown, `humanReadableDistance`
is `formatToMetricDistance`, which computes the length `L` in millimetres as
the double product of the source distance and the unit factor and yields
kilometres `L / 10^6` if `L > 10^6`, else metres `L / 1000` if `L > 1000`, else
centimetres `L / 10` if `L > 10`, else millimetres `L`, each quotient rounded
to a double; the comparisons are strict, so that `L = 10^6`, exactly 1 km, is
reported as 1000 m; a negative `L`, minus infinity included, gives 0
millimetres.  A product that overflows to plus infinity is infinitely many
kilometres, and a NaN stays a NaN, in millimetres. -/
theorem humanReadableDistance_metric_ladder (srcDistance : Double) (srcUnits : DistanceUnit)
    (destSystem : SystemOfMeasurement)
    (h : destSystem = MetricSystem ∨ destSystem = UnknownSystem) :
    humanReadableDistance srcDistance srcUnits destSystem =
      formatToMetricDistance srcDistance srcUnits ∧
    (srcDistance.mul (fromUnitToUnitFactor srcUnits DistanceMillimeters) = Double.negInf →
      humanReadableDistance srcDistance srcUnits destSystem =
        (Double.fin 0, DistanceMillimeters)) ∧
    (srcDistance.mul (fromUnitToUnitFactor srcUnits DistanceMillimeters) = Double.posInf →
      humanReadableDistance srcDistance srcUnits destSystem =
        (Double.posInf, DistanceKilometers)) ∧
    (srcDistance.mul (fromUnitToUnitFactor srcUnits DistanceMillimeters) = Double.nan →
      humanReadableDistance srcDistance srcUnits destSystem =
        (Double.nan, DistanceMillimeters)) ∧
    (∀ l : ℚ,
      srcDistance.mul (fromUnitToUnitFactor srcUnits DistanceMillimeters) = Double.fin l →
      (l < 0 → humanReadableDistance srcDistance srcUnits destSystem =
        (Double.fin 0, DistanceMillimeters)) ∧
      (10 ^ 6 < l → humanReadableDistance srcDistance srcUnits destSystem =
        (roundToDouble (l / 10 ^ 6), DistanceKilometers)) ∧
      (0 ≤ l → l ≤ 10 ^ 6 → 1000 < l →
        humanReadableDistance srcDistance srcUnits destSystem =
          (roundToDouble (l / 1000), DistanceMeters)) ∧
      (0 ≤ l → l ≤ 1000 → 10 < l →
        humanReadableDistance srcDistance srcUnits destSystem =
          (roundToDouble (l / 10), DistanceCentimeters)) ∧
      (0 ≤ l → l ≤ 10 → humanReadableDistance srcDistance srcUnits destSystem =
        (Double.fin l, DistanceMillimeters)) ∧
      (l = 10 ^ 6 → humanReadableDistance srcDistance srcUnits destSystem =
        (Double.fin 1000, DistanceMeters))) := by
  have h1 : humanReadableDistance srcDistance srcUnits destSystem =
      formatToMetricDistance srcDistance srcUnits := by
    simp only [humanReadableDistance, h, if_true]
  refine ⟨h1, ?_, ?_, ?_, ?_⟩
  · intro hinf
    rw [h1]
    simp [formatToMetricDistance, hinf, Double.lt]
  · intro hinf
    rw [h1, ← ladder_posInf (10 ^ 6) 1000 10 (by norm_num) DistanceMillimeters
      DistanceKilometers DistanceMeters DistanceCentimeters]
    simp only [formatToMetricDistance, factor_km_mm, factor_m_mm, factor_cm_mm, hinf]
  · intro hnan
    rw [h1, ← ladder_nan (10 ^ 6) 1000 10 DistanceMillimeters
      DistanceKilometers DistanceMeters DistanceCentimeters]
    simp only [formatToMetricDistance, factor_km_mm, factor_m_mm, factor_cm_mm, hnan]
  · intro l hL
    rw [h1, formatToMetricDistance_fin srcDistance srcUnits l hL]
    refine ⟨?_, ?_, ?_, ?_, ?_, ?_⟩
    · intro c
      rw [if_pos c]
    · intro c
      rw [if_neg (by linarith), if_pos c]
    · intro c0 c1 c2
      rw [if_neg (by linarith), if_neg (by linarith), if_pos c2]
    · intro c0 c1 c2
      rw [if_neg (by linarith), if_neg (by linarith), if_neg (by linarith), if_pos c2]
    · intro c0 c1
      rw [if_neg (by linarith), if_neg (by linarith), if_neg (by linarith),
        if_neg (by linarith)]
    · intro c
      subst c
      rw [if_neg (by norm_num), if_neg (by norm_num), if_pos (by norm_num),
        roundToDouble_of_eq_int _ 1000 (by norm_num) (by decide)]
      norm_num

/-- C9 on every rung: 2500 m is 2.5 km, 1 km is 1000 m, half a metre is 50 cm,
the double 0.01 in metres (its product with 1000.0 is rounded to 10.0) is
10 mm, and -2 m is 0 mm. -/
theorem humanReadableDistance_metric_ladder_witness :
    humanReadableDistance (Double.fin 2500) DistanceMeters MetricSystem =
      (Double.fin (5 / 2), DistanceKilometers) ∧
    humanReadableDistance (Double.fin 1) DistanceKilometers MetricSystem =
      (Double.fin 1000, DistanceMeters) ∧
    humanReadableDistance (Double.fin (1 / 2)) DistanceMeters UnknownSystem =
      (Double.fin 50, DistanceCentimeters) ∧
    humanReadableDistance (Double.fin (5764607523034235 / 2 ^ 59)) DistanceMeters MetricSystem =
      (Double.fin 10, DistanceMillimeters) ∧
    humanReadableDistance (Double.fin (-2)) DistanceMeters UnknownSystem =
      (Double.fin 0, DistanceMillimeters) ∧
    humanReadableDistance (Double.fin (2 ^ 1023)) DistanceKilometers MetricSystem =
      (Double.posInf, DistanceKilometers) := by
  have m1 : (Double.fin 2500).mul (fromUnitToUnitFactor DistanceMeters DistanceMillimeters)
      = Double.fin 2500000 := by
    rw [factor_m_mm, mul_eq_int 2500 1000 2500000 (by norm_num) (by decide)]
    norm_num
  have m2 : (Double.fin 1).mul (fromUnitToUnitFactor DistanceKilometers DistanceMillimeters)
      = Double.fin (10 ^ 6) := by
    rw [factor_km_mm, mul_eq_int 1 (10 ^ 6) 1000000 (by norm_num) (by decide)]
    norm_num
  have m3 : (Double.fin (1 / 2)).mul (fromUnitToUnitFactor DistanceMeters DistanceMillimeters)
      = Double.fin 500 := by
    rw [factor_m_mm, mul_eq_int (1 / 2) 1000 500 (by norm_num) (by decide)]
    norm_num
  have m4 : (Double.fin (5764607523034235 / 2 ^ 59)).mul
      (fromUnitToUnitFactor DistanceMeters DistanceMillimeters) = Double.fin 10 := by
    rw [factor_m_mm]
    show roundToDouble (5764607523034235 / 2 ^ 59 * 1000) = Double.fin 10
    rw [roundToDouble_pos _ 3 (-49) (10 * 2 ^ 49) (by norm_num) (by norm_num)
      (by decide) (by norm_num [abs_lt]) (by norm_num [abs_lt])]
    norm_num
  have m5 : (Double.fin (-2)).mul (fromUnitToUnitFactor DistanceMeters DistanceMillimeters)
      = Double.fin (-2000) := by
    rw [factor_m_mm, mul_eq_int (-2) 1000 (-2000) (by norm_num) (by decide)]
    norm_num
  have r1 : roundToDouble (2500000 / 10 ^ 6) = Double.fin (5 / 2) := by
    rw [roundToDouble_of_eq_dyadic _ 5 (-1) (by norm_num) (by decide) (by decide)
      (by norm_num [abs_lt])]
    norm_num
  have r3 : roundToDouble (500 / 10) = Double.fin 50 := by
    rw [roundToDouble_of_eq_int _ 50 (by norm_num) (by decide)]
    norm_num
  have m6 : (Double.fin (2 ^ 1023)).mul
      (fromUnitToUnitFactor DistanceKilometers DistanceMillimeters) = Double.posInf := by
    rw [factor_km_mm]
    exact mul_overflow _ _ 15625 1029 (by norm_num) (by decide) (by decide) (by norm_num)
  refine ⟨?_, ?_, ?_, ?_, ?_, ?_⟩
  · rw [((humanReadableDistance_metric_ladder (Double.fin 2500) DistanceMeters MetricSystem
      (Or.inl rfl)).2.2.2.2 2500000 m1).2.1 (by norm_num), r1]
  · exact ((humanReadableDistance_metric_ladder (Double.fin 1) DistanceKilometers MetricSystem
      (Or.inl rfl)).2.2.2.2 (10 ^ 6) m2).2.2.2.2.2 rfl
  · rw [((humanReadableDistance_metric_ladder (Double.fin (1 / 2)) DistanceMeters
      UnknownSystem (Or.inr rfl)).2.2.2.2 500 m3).2.2.2.1 (by norm_num) (by norm_num)
      (by norm_num), r3]
  · exact ((humanReadableDistance_metric_ladder (Double.fin (5764607523034235 / 2 ^ 59))
      DistanceMeters MetricSystem (Or.inl rfl)).2.2.2.2 10 m4).2.2.2.2.1 (by norm_num)
      (by norm_num)
  · exact ((humanReadableDistance_metric_ladder (Double.fin (-2)) DistanceMeters UnknownSystem
      (Or.inr rfl)).2.2.2.2 (-2000) m5).1 (by norm_num)
  · exact (humanReadableDistance_metric_ladder (Double.fin (2 ^ 1023)) DistanceKilometers
      MetricSystem (Or.inl rfl)).2.2.1 m6

/-- The two foot-based functions are ladders in the sense of `IsFeetLadder`. -/
theorem isFeetLadder_of_def (f : Double → DistanceUnit → Double × DistanceUnit)
    (largeUnit : DistanceUnit) (n : ℚ) (hn : 3 ≤ n)
    (hf : ∀ srcDistance srcUnits, f srcDistance srcUnits =
      (let dist := srcDistance.mul (fromUnitToUnitFactor srcUnits DistanceFeet)
       if dist.lt (Double.fin 0) then (Double.fin 0, DistanceFeet)
       else if dist.gt (Double.fin n) then (dist.div (Double.fin n), largeUnit)
       else if dist.gt (Double.fin 3) then (dist.div (Double.fin 3), DistanceYards)
       else (dist, DistanceFeet))) :
    IsFeetLadder f largeUnit n := by
  intro srcDistance srcUnits
  have hn0 : ¬ n = 0 := by
    intro h0
    rw [h0] at hn
    exact absurd hn (by norm_num)
  refine ⟨?_, ?_, ?_, ?_⟩
  · intro hinf
    rw [hf]
    simp [hinf, Double.lt]
  · intro hinf
    rw [hf]
    simp [hinf, Double.lt, Double.gt, Double.div, le_trans (by norm_num : (0 : ℚ) ≤ 3) hn]
  · intro hnan
    rw [hf]
    simp [hnan, Double.lt, Double.gt]
  · intro F hF
    rw [hf]
    simp only [hF, Double.lt, Double.gt, Double.div, decide_eq_true_eq]
    rw [if_neg hn0, if_neg (by norm_num : ¬ ((3 : ℚ) = 0))]
    refine ⟨?_, ?_, ?_, ?_⟩
    · intro c
      rw [if_pos c]
    · intro c
      rw [if_neg (by linarith), if_pos c]
    · intro c0 c1 c2
      rw [if_neg (by linarith), if_neg (by linarith), if_pos c2]
    · intro c0 c1
      rw [if_neg (by linarith), if_neg (by linarith), if_neg (by linarith)]

/-- C10: `formatToImperialDistance` and `formatToUSCSDistance` are the same
ladder over the length `F` in feet, the double product of the source distance
and the unit factor, and differ only in the large unit, statute miles of 5280
feet and nautical miles of 6076.115485564304 feet: the large unit with value
`F` divided by its number of feet if `F` is greater than that number, else
yards `F / 3` if `F > 3`, else feet `F`; a negative `F` gives 0 feet in both. -/
theorem imperial_uscs_ladders :
    IsFeetLadder formatToImperialDistance DistanceMiles 5280 ∧
    IsFeetLadder formatToUSCSDistance DistanceNauticalMiles (6680759628087769 / 2 ^ 40) ∧
    fromUnitToUnitFactor DistanceMiles DistanceFeet = Double.fin 5280 ∧
    fromUnitToUnitFactor DistanceNauticalMiles DistanceFeet =
      Double.fin (6680759628087769 / 2 ^ 40) ∧
    (∀ (srcDistance : Double) (srcUnits : DistanceUnit),
      humanReadableDistance srcDistance srcUnits ImperialSystem =
        formatToImperialDistance srcDistance srcUnits ∧
      humanReadableDistance srcDistance srcUnits USCSSystem =
        formatToUSCSDistance srcDistance srcUnits) := by
  refine ⟨?_, ?_, factor_mile_feet, factor_nautical_feet, ?_⟩
  · apply isFeetLadder_of_def _ _ _ (by norm_num)
    intro srcDistance srcUnits
    simp only [formatToImperialDistance, factor_mile_feet, factor_yard_feet]
  · apply isFeetLadder_of_def _ _ _ (by norm_num)
    intro srcDistance srcUnits
    simp only [formatToUSCSDistance, factor_nautical_feet, factor_yard_feet]
  · intro srcDistance srcUnits
    constructor <;> simp [humanReadableDistance]

/-- C10 on every rung: 3 miles stay 3 miles, 30 feet are 10 yards and 2 feet
stay 2 feet in the imperial system; 2 nautical miles stay 2 nautical miles and
30 feet are 10 yards in the USCS system; -1 yard is 0 feet in both; and the
double 1609.344 in metres, whose length in feet is rounded to 5280.0, exactly
one mile, is 1760 yards. -/
theorem imperial_uscs_ladders_witness :
    formatToImperialDistance (Double.fin 3) DistanceMiles = (Double.fin 3, DistanceMiles) ∧
    formatToImperialDistance (Double.fin 30) DistanceFeet = (Double.fin 10, DistanceYards) ∧
    formatToImperialDistance (Double.fin 2) DistanceFeet = (Double.fin 2, DistanceFeet) ∧
    formatToUSCSDistance (Double.fin 2) DistanceNauticalMiles =
      (Double.fin 2, DistanceNauticalMiles) ∧
    formatToUSCSDistance (Double.fin 30) DistanceFeet = (Double.fin 10, DistanceYards) ∧
    formatToImperialDistance (Double.fin (-1)) DistanceYards = (Double.fin 0, DistanceFeet) ∧
    formatToUSCSDistance (Double.fin (-1)) DistanceYards = (Double.fin 0, DistanceFeet) ∧
    formatToImperialDistance (Double.fin (1769492441091539 / 2 ^ 40)) DistanceMeters =
      (Double.fin 1760, DistanceYards) := by
  have m1 : (Double.fin 3).mul (fromUnitToUnitFactor DistanceMiles DistanceFeet)
      = Double.fin 15840 := by
    rw [factor_mile_feet, mul_eq_int 3 5280 15840 (by norm_num) (by decide)]
    norm_num
  have m2 : (Double.fin 30).mul (fromUnitToUnitFactor DistanceFeet DistanceFeet)
      = Double.fin 30 := by
    rw [factor_feet_feet, mul_eq_int 30 1 30 (by norm_num) (by decide)]
    norm_num
  have m3 : (Double.fin 2).mul (fromUnitToUnitFactor DistanceFeet DistanceFeet)
      = Double.fin 2 := by
    rw [factor_feet_feet, mul_eq_int 2 1 2 (by norm_num) (by decide)]
    norm_num
  have m4 : (Double.fin 2).mul (fromUnitToUnitFactor DistanceNauticalMiles DistanceFeet)
      = Double.fin (6680759628087769 / 2 ^ 39) := by
    rw [factor_nautical_feet, mul_eq_dyadic 2 (6680759628087769 / 2 ^ 40) 6680759628087769 (-39)
      (by norm_num) (by decide) (by decide) (by norm_num [abs_lt])]
    norm_num
  have m5 : (Double.fin (-1)).mul (fromUnitToUnitFactor DistanceYards DistanceFeet)
      = Double.fin (-3) := by
    rw [factor_yard_feet, mul_eq_int (-1) 3 (-3) (by norm_num) (by decide)]
    norm_num
  have m6 : (Double.fin (1769492441091539 / 2 ^ 40)).mul
      (fromUnitToUnitFactor DistanceMeters DistanceFeet) = Double.fin 5280 := by
    rw [factor_m_feet]
    show roundToDouble (1769492441091539 / 2 ^ 40 * (7387794664321679 / 2 ^ 51)) = Double.fin 5280
    rw [roundToDouble_pos _ 12 (-40) (5280 * 2 ^ 40) (by norm_num) (by norm_num)
      (by decide) (by norm_num [abs_lt]) (by norm_num [abs_lt])]
    norm_num
  have r1 : roundToDouble (15840 / 5280) = Double.fin 3 := by
    rw [roundToDouble_of_eq_int _ 3 (by norm_num) (by decide)]
    norm_num
  have r2 : roundToDouble (30 / 3) = Double.fin 10 := by
    rw [roundToDouble_of_eq_int _ 10 (by norm_num) (by decide)]
    norm_num
  have r4 : roundToDouble (6680759628087769 / 2 ^ 39 / (6680759628087769 / 2 ^ 40)) =
      Double.fin 2 := by
    rw [roundToDouble_of_eq_int _ 2 (by norm_num) (by decide)]
    norm_num
  have r6 : roundToDouble (5280 / 3) = Double.fin 1760 := by
    rw [roundToDouble_of_eq_int _ 1760 (by norm_num) (by decide)]
    norm_num
  refine ⟨?_, ?_, ?_, ?_, ?_, ?_, ?_, ?_⟩
  · rw [((imperial_uscs_ladders.1 (Double.fin 3) DistanceMiles).2.2.2 15840 m1).2.1 (by norm_num),
      r1]
  · rw [((imperial_uscs_ladders.1 (Double.fin 30) DistanceFeet).2.2.2 30 m2).2.2.1 (by norm_num)
      (by norm_num) (by norm_num), r2]
  · exact ((imperial_uscs_ladders.1 (Double.fin 2) DistanceFeet).2.2.2 2 m3).2.2.2 (by norm_num)
      (by norm_num)
  · rw [((imperial_uscs_ladders.2.1 (Double.fin 2) DistanceNauticalMiles).2.2.2 _ m4).2.1
      (by norm_num), r4]
  · rw [((imperial_uscs_ladders.2.1 (Double.fin 30) DistanceFeet).2.2.2 30 m2).2.2.1 (by norm_num)
      (by norm_num) (by norm_num), r2]
  · exact ((imperial_uscs_ladders.1 (Double.fin (-1)) DistanceYards).2.2.2 (-3) m5).1 (by norm_num)
  · exact ((imperial_uscs_ladders.2.1 (Double.fin (-1)) DistanceYards).2.2.2 (-3) m5).1
      (by norm_num)
  · rw [((imperial_uscs_ladders.1 (Double.fin (1769492441091539 / 2 ^ 40)) DistanceMeters).2.2.2
      5280 m6).2.2.1 (by norm_num) (by norm_num) (by norm_num), r6]

/-! ## C7: relative paths -/

/-- With `modPath` as the code computes it, `getRelativePath` returns the empty
text for a non-empty prefix when a path that does not exist does not start with
the prefix, and when the canonical form of a path that exists does not start
with the canonical prefix followed by `/`. -/
theorem getRelativePath_not_under_prefix (fileExists : String → Bool)
    (canonicalPath : String → String) (path prefixPath : String)
    (hp : prefixPath.data ≠ []) :
    (fileExists path = false →
      startsWith (if startsWith path "file://" then remove path "file://" else path)
        prefixPath = false →
      getRelativePath fileExists canonicalPath path prefixPath = "") ∧
    (fileExists path = true →
      startsWith
        (canonicalPath (if startsWith path "file://" then remove path "file://" else path))
        (canonicalPath prefixPath ++ "/") = false →
      getRelativePath fileExists canonicalPath path prefixPath = "") := by
  constructor
  · intro he hs
    simp [getRelativePath, hp, he, hs]
  · intro he hs
    simp [getRelativePath, hp, he, hs]

/-- C7 at a failing input: the path `file:///file://a/x` does not exist, and
after the removal of its leading `file://` it is `/file://a/x`, which does not
start with the prefix `/a`; `getRelativePath` removes both occurrences of
`file://` and returns `/x` instead of the empty text. -/
theorem getRelativePath_strips_every_file_prefix (canonicalPath : String → String) :
    "file:///file://a/x" = "file://" ++ "/file://a/x" ∧
    startsWith "/file://a/x" "/a" = false ∧
    getRelativePath (fun _ => false) canonicalPath "file:///file://a/x" "/a" = "/x" := by
  refine ⟨by decide, by decide, ?_⟩
  simp [getRelativePath]
  decide

/-! ## C11, C16: buckets of seconds and the count of a phrase -/

/-- The truncating division by a positive literal, by the sign of the
dividend. -/
theorem tdiv_cases (x k : Int) (hk : 0 < k) :
    (0 ≤ x ∧ Int.tdiv x k = x / k) ∨ (x < 0 ∧ Int.tdiv x k = -((-x) / k)) := by
  by_cases hx : 0 ≤ x
  · exact Or.inl ⟨hx, Int.tdiv_eq_ediv hx (le_of_lt hk)⟩
  · right
    refine ⟨by omega, ?_⟩
    have h : x = -(-x) := by omega
    conv_lhs => rw [h]
    rw [Int.neg_tdiv, Int.tdiv_eq_ediv (by omega) (le_of_lt hk)]

/-- With a calendar-day difference of 0 or 1 in one zone, the absolute
difference is less than two days and `secsTo` is its whole number of seconds. -/
theorem secsTo_of_near (tMin tMax : QDateTime) (ho : tMin.offset = tMax.offset)
    (hd : tMin.daysTo tMax = 0 ∨ tMin.daysTo tMax = 1) (h : tMin.msecs ≤ tMax.msecs) :
    tMin.secsTo tMax = (tMax.msecs - tMin.msecs) / 1000 ∧
    tMax.msecs - tMin.msecs < 2 * 86400000 ∧
    (86400000 ≤ tMax.msecs - tMin.msecs → tMin.daysTo tMax = 1) := by
  unfold QDateTime.daysTo QDateTime.date at hd
  have hlt : tMax.msecs - tMin.msecs < 2 * 86400000 := by omega
  refine ⟨?_, hlt, ?_⟩
  · unfold QDateTime.secsTo QDateTime.msecsTo
    rw [wrap64_of_range (by omega) (by omega), Int.tdiv_eq_ediv (by omega) (by omega)]
  · intro h1
    unfold QDateTime.daysTo QDateTime.date
    omega

/-- When the calendar-day difference is 0 or 1, `formatDateTimeDiff` buckets by
the elapsed seconds `s`: minutes with count ⌊s/60⌋ for 60 ≤ s < 3600, hours
with count ⌊s/3600⌋ for 3600 ≤ s < 86400, and for s ≥ 86400 the calendar-day
difference followed by ` day ago`, which is "1 day ago" when both datetimes
have the same offset from UTC. -/
theorem formatDateTimeDiff_seconds_buckets (tMin tMax : QDateTime)
    (hd : tMin.daysTo tMax = 0 ∨ tMin.daysTo tMax = 1) :
    ((60 ≤ tMin.secsTo tMax ∧ tMin.secsTo tMax < 3600) →
      formatDateTimeDiff tMin tMax =
        if tMin.secsTo tMax / 60 = 1 then "1 minute ago"
        else toString (tMin.secsTo tMax / 60) ++ " minutes ago") ∧
    ((3600 ≤ tMin.secsTo tMax ∧ tMin.secsTo tMax < 86400) →
      formatDateTimeDiff tMin tMax =
        if tMin.secsTo tMax / 3600 = 1 then "1 hour ago"
        else toString (tMin.secsTo tMax / 3600) ++ " hours ago") ∧
    (86400 ≤ tMin.secsTo tMax →
      formatDateTimeDiff tMin tMax = toString (tMin.daysTo tMax) ++ " day ago") ∧
    (86400 ≤ tMin.secsTo tMax → tMin.offset = tMax.offset →
      formatDateTimeDiff tMin tMax = "1 day ago") := by
  have hneg : ¬ tMin.daysTo tMax < 0 := by omega
  have hgt : ¬ tMin.daysTo tMax > 1 := by omega
  generalize hs : tMin.secsTo tMax = s
  have days : 86400 ≤ s →
      formatDateTimeDiff tMin tMax = toString (tMin.daysTo tMax) ++ " day ago" := by
    intro h1
    have c1 : ¬ s < 0 := by omega
    have c2 : ¬ s < 60 := by omega
    have c3 : ¬ s < 60 * 60 := by omega
    have c4 : ¬ s < 60 * 60 * 24 := by omega
    simp only [formatDateTimeDiff, hneg, hd, hs, c1, c2, c3, c4, hgt, if_true, if_false, tr]
  refine ⟨?_, ?_, days, ?_⟩
  · rintro ⟨h1, h2⟩
    have c1 : ¬ s < 0 := by omega
    have c2 : ¬ s < 60 := by omega
    have c3 : s < 60 * 60 := by omega
    have hp : toInt (Int.tdiv s 60) = s / 60 := by
      rw [Int.tdiv_eq_ediv (by omega) (by decide)]
      exact toInt_of_range (by omega) (by omega)
    simp only [formatDateTimeDiff, hneg, hd, hs, c1, c2, c3, hp, if_true, if_false, tr]
    by_cases hq : s / 60 = 1
    · simp only [hq, if_true]; rfl
    · have : s / 60 > 1 := by omega
      simp only [hq, this, if_true, if_false]
  · rintro ⟨h1, h2⟩
    have c1 : ¬ s < 0 := by omega
    have c2 : ¬ s < 60 := by omega
    have c3 : ¬ s < 60 * 60 := by omega
    have c4 : s < 60 * 60 * 24 := by omega
    have hp : toInt (Int.tdiv s (60 * 60)) = s / 3600 := by
      rw [Int.tdiv_eq_ediv (by omega) (by decide)]
      exact toInt_of_range (by omega) (by omega)
    simp only [formatDateTimeDiff, hneg, hd, hs, c1, c2, c3, c4, hp, if_true, if_false, tr]
    by_cases hq : s / 3600 = 1
    · simp only [hq, if_true]; rfl
    · have : s / 3600 > 1 := by omega
      simp only [hq, this, if_true, if_false]
  · intro h1 ho
    rw [days h1]
    have hone : tMin.daysTo tMax = 1 := by
      rcases tdiv_cases (tMin.msecsTo tMax) 1000 (by decide) with ⟨hx, he⟩ | ⟨hx, he⟩
      · have hle : tMin.msecs ≤ tMax.msecs := by
          by_contra hc
          have hle2 := daysTo_nonpos_of_le tMin tMax ho (by omega)
          have hd0 : tMin.daysTo tMax = 0 := by omega
          have := secsTo_neg_of_same_day tMin tMax ho hd0
          have hz := secsTo_zero_of_subsecond tMin tMax (by omega)
          by_cases hk : tMax.msecs + 1000 ≤ tMin.msecs
          · have := this hk
            omega
          · have := hz (by omega)
            omega
        have hn := secsTo_of_near tMin tMax ho hd hle
        apply hn.2.2
        rw [hn.1] at hs
        omega
      · unfold QDateTime.secsTo at hs
        rw [he] at hs
        omega
    rw [hone]
    rfl

/-- The buckets of seconds at 23:55 and 00:05 of the next day ("10 minutes
ago", not in days), at two hours and at thirty hours. -/
theorem formatDateTimeDiff_seconds_buckets_examples :
    formatDateTimeDiff ⟨86100000, 0, by decide, by decide⟩ ⟨86700000, 0, by decide, by decide⟩
      = "10 minutes ago" ∧
    formatDateTimeDiff ⟨0, 0, by decide, by decide⟩ ⟨2 * 3600000, 0, by decide, by decide⟩
      = "2 hours ago" ∧
    formatDateTimeDiff ⟨0, 0, by decide, by decide⟩ ⟨30 * 3600000, 0, by decide, by decide⟩
      = "1 day ago" :=
  ⟨(formatDateTimeDiff_seconds_buckets ⟨86100000, 0, by decide, by decide⟩
      ⟨86700000, 0, by decide, by decide⟩ (by decide)).1 (by decide),
   (formatDateTimeDiff_seconds_buckets ⟨0, 0, by decide, by decide⟩
      ⟨2 * 3600000, 0, by decide, by decide⟩ (by decide)).2.1 (by decide),
   (formatDateTimeDiff_seconds_buckets ⟨0, 0, by decide, by decide⟩
      ⟨30 * 3600000, 0, by decide, by decide⟩ (by decide)).2.2.2 (by decide) rfl⟩

/-- A text that ends in ` ago` differs from every text whose last character
is not `o`. -/
theorem relativePhrase_ne (n : Int) (unit t : String)
    (ht : t.data.getLast? ≠ some 'o') : relativePhrase n unit ≠ t := by
  intro h
  apply ht
  rw [← h]
  unfold relativePhrase
  rw [String.data_append]
  show (_ ++ ' ' :: ['a', 'g', 'o']).getLast? = some 'o'
  rw [List.getLast?_append_cons]
  rfl

/-- The plural form of a phrase. -/
theorem relativePhrase_plural (n : Int) (unit u : String) (hn : ¬ n = 1)
    (hu : " " ++ unit ++ "s" ++ " ago" = u) : toString n ++ u = relativePhrase n unit := by
  subst hu
  simp only [relativePhrase, hn, if_false, String.append_assoc]

/-- The singular form of a phrase. -/
theorem relativePhrase_singular (unit u : String)
    (hu : " " ++ unit ++ "" ++ " ago" = u) :
    toString (1 : Int) ++ u = relativePhrase 1 unit := by
  subst hu
  simp only [relativePhrase, if_true, String.append_assoc]

/-- The text of a branch with a count of at least 1 is a relative-time
phrase. -/
theorem branch_is_phrase (p : Int) (hp : 1 ≤ p) (unit plural singular : String)
    (hpl : " " ++ unit ++ "s" ++ " ago" = plural)
    (hsg : " " ++ unit ++ "" ++ " ago" = singular) :
    (if p > 1 then toString p ++ plural else toString p ++ singular) =
      relativePhrase p unit := by
  by_cases h1 : p = 1
  · subst h1
    simp only [gt_iff_lt, lt_self_iff_false, if_false]
    exact relativePhrase_singular unit singular hsg
  · have : p > 1 := by omega
    simp only [this, if_true]
    exact relativePhrase_plural p unit plural h1 hpl

/-- For two datetimes with the same offset from UTC and `tMin ≤ tMax`, the
result of `formatDateTimeDiff` is "just now" or a phrase with a count of at
least 1, a unit in the singular exactly when the count is 1, and `ago`; it is
not "Invalid datetime". -/
theorem formatDateTimeDiff_shape (tMin tMax : QDateTime)
    (ho : tMin.offset = tMax.offset) (h : tMin.msecs ≤ tMax.msecs) :
    (formatDateTimeDiff tMin tMax = "just now" ∨
      ∃ n : Int, ∃ unit : String, 1 ≤ n ∧
        unit ∈ ["minute", "hour", "day", "week", "month", "year"] ∧
        formatDateTimeDiff tMin tMax = relativePhrase n unit) ∧
    formatDateTimeDiff tMin tMax ≠ "Invalid datetime" := by
  have hshape : formatDateTimeDiff tMin tMax = "just now" ∨
      ∃ n : Int, ∃ unit : String, 1 ≤ n ∧
        unit ∈ ["minute", "hour", "day", "week", "month", "year"] ∧
        formatDateTimeDiff tMin tMax = relativePhrase n unit := by
    have hb := daysTo_bounds tMin tMax
    have hnn := daysTo_nonneg_of_le tMin tMax ho h
    have hneg : ¬ tMin.daysTo tMax < 0 := by omega
    by_cases hd : tMin.daysTo tMax = 0 ∨ tMin.daysTo tMax = 1
    · obtain ⟨hs, hlt, hday⟩ := secsTo_of_near tMin tMax ho hd h
      generalize hss : tMin.secsTo tMax = s at hs
      have c1 : ¬ s < 0 := by omega
      by_cases c2 : s < 60
      · left
        simp only [formatDateTimeDiff, hneg, hd, hss, c1, c2, if_true, if_false, tr]
      · right
        by_cases c3 : s < 60 * 60
        · have hp : toInt (Int.tdiv s 60) = s / 60 := by
            rw [Int.tdiv_eq_ediv (by omega) (by decide)]
            exact toInt_of_range (by omega) (by omega)
          refine ⟨s / 60, "minute", by omega, by simp, ?_⟩
          simp only [formatDateTimeDiff, hneg, hd, hss, c1, c2, c3, hp, if_true, if_false, tr]
          exact branch_is_phrase _ (by omega) _ _ _ rfl rfl
        · by_cases c4 : s < 60 * 60 * 24
          · have hp : toInt (Int.tdiv s (60 * 60)) = s / 3600 := by
              rw [Int.tdiv_eq_ediv (by omega) (by decide)]
              exact toInt_of_range (by omega) (by omega)
            refine ⟨s / 3600, "hour", by omega, by simp, ?_⟩
            simp only [formatDateTimeDiff, hneg, hd, hss, c1, c2, c3, c4, hp, if_true,
              if_false, tr]
            exact branch_is_phrase _ (by omega) _ _ _ rfl rfl
          · have hone : tMin.daysTo tMax = 1 := hday (by omega)
            refine ⟨1, "day", by omega, by simp, ?_⟩
            simp only [formatDateTimeDiff, hneg, hd, hss, c1, c2, c3, c4, if_true,
              if_false, tr]
            rw [hone]
            exact branch_is_phrase 1 (by omega) _ _ _ rfl rfl
    · right
      generalize hdd : tMin.daysTo tMax = d at hb hnn hneg hd
      by_cases c5 : d < 7
      · refine ⟨d, "day", by omega, by simp, ?_⟩
        simp only [formatDateTimeDiff, hdd, hneg, hd, c5, if_true, if_false, tr]
        exact branch_is_phrase d (by omega) _ _ _ rfl rfl
      · by_cases c6 : d < 31
        · have hp : toInt (Int.tdiv d 7) = d / 7 := by
            rw [Int.tdiv_eq_ediv (by omega) (by decide)]
            exact toInt_of_range (by omega) (by omega)
          refine ⟨d / 7, "week", by omega, by simp, ?_⟩
          simp only [formatDateTimeDiff, hdd, hneg, hd, c5, c6, hp, if_true, if_false, tr]
          exact branch_is_phrase _ (by omega) _ _ _ rfl rfl
        · by_cases c7 : d < 365
          · have hp : toInt (Int.tdiv d 31) = d / 31 := by
              rw [Int.tdiv_eq_ediv (by omega) (by decide)]
              exact toInt_of_range (by omega) (by omega)
            refine ⟨d / 31, "month", by omega, by simp, ?_⟩
            simp only [formatDateTimeDiff, hdd, hneg, hd, c5, c6, c7, hp, if_true,
              if_false, tr]
            exact branch_is_phrase _ (by omega) _ _ _ rfl rfl
          · have hp : toInt (Int.tdiv d 365) = d / 365 := by
              rw [Int.tdiv_eq_ediv (by omega) (by decide)]
              exact toInt_of_range (by omega) (by omega)
            refine ⟨d / 365, "year", by omega, by simp, ?_⟩
            simp only [formatDateTimeDiff, hdd, hneg, hd, c5, c6, c7, hp, if_true,
              if_false, tr]
            exact branch_is_phrase _ (by omega) _ _ _ rfl rfl
  refine ⟨hshape, ?_⟩
  rcases hshape with hj | ⟨n, unit, _, _, hr⟩
  · rw [hj]
    decide
  · rw [hr]
    exact relativePhrase_ne n unit _ (by decide)

/-- C11 at a failing input: in the zone Europe/Berlin, 2021-10-31T00:00:00+02:00
and 2021-10-31T23:59:59+01:00 fall on one calendar day, 89999 seconds apart
(the day has 25 hours); `formatDateTimeDiff` prints the calendar-day difference
and returns "0 day ago", not "1 day ago". -/
theorem formatDateTimeDiff_long_day_zero :
    (⟨1635631200000, 7200, by decide, by decide⟩ : QDateTime).daysTo
      ⟨1635721199000, 3600, by decide, by decide⟩ = 0 ∧
    (⟨1635631200000, 7200, by decide, by decide⟩ : QDateTime).secsTo
      ⟨1635721199000, 3600, by decide, by decide⟩ = 89999 ∧
    formatDateTimeDiff ⟨1635631200000, 7200, by decide, by decide⟩
      ⟨1635721199000, 3600, by decide, by decide⟩ = "0 day ago" ∧
    formatDateTimeDiff ⟨1635631200000, 7200, by decide, by decide⟩
      ⟨1635721199000, 3600, by decide, by decide⟩ ≠ "1 day ago" := by
  decide

/-- C16 at a failing input: in the zone Europe/Berlin, 2021-10-31T00:00:00+02:00
is not later than 2021-10-31T23:59:59+01:00, and the result of
`formatDateTimeDiff` is the phrase with the count 0, "0 day ago". -/
theorem formatDateTimeDiff_count_zero :
    (⟨1635631200000, 7200, by decide, by decide⟩ : QDateTime).msecs ≤
      (⟨1635721199000, 3600, by decide, by decide⟩ : QDateTime).msecs ∧
    formatDateTimeDiff ⟨1635631200000, 7200, by decide, by decide⟩
      ⟨1635721199000, 3600, by decide, by decide⟩ = toString (0 : Int) ++ " day ago" ∧
    formatDateTimeDiff ⟨1635631200000, 7200, by decide, by decide⟩
      ⟨1635721199000, 3600, by decide, by decide⟩ ≠ "just now" := by
  decide

/-! ## C12: the ladder of byte sizes -/

/-- C12: `bytesToHumanSize` gives "0.0" without a unit for every b < 1e-5
(zero, the negative values and minus infinity included), `b / 1024` with KB up
to 1024^2, `b / 1024^2` with MB up to 1024^3, `b / 1024^3` with GB up to 1024^4
and `b / 1024^4` with TB from there on; the number is printed with exactly one
decimal digit. -/
theorem bytesToHumanSize_ladder (b : ℚ) :
    (b < 1 / 100000 → bytesToHumanSize (Double.fin b) = "0.0") ∧
    ((1 / 100000 ≤ b ∧ b < 1024 ^ 2) →
      bytesToHumanSize (Double.fin b) = number (Double.fin (b / 1024)) 1 ++ " KB") ∧
    ((1024 ^ 2 ≤ b ∧ b < 1024 ^ 3) →
      bytesToHumanSize (Double.fin b) = number (Double.fin (b / 1024 ^ 2)) 1 ++ " MB") ∧
    ((1024 ^ 3 ≤ b ∧ b < 1024 ^ 4) →
      bytesToHumanSize (Double.fin b) = number (Double.fin (b / 1024 ^ 3)) 1 ++ " GB") ∧
    (1024 ^ 4 ≤ b →
      bytesToHumanSize (Double.fin b) = number (Double.fin (b / 1024 ^ 4)) 1 ++ " TB") ∧
    (0 ≤ b →
      number (Double.fin b) 1 =
        toString (roundedUnits b 1 / 10) ++ "." ++
          String.singleton (Nat.digitChar (roundedUnits b 1 % 10))) ∧
    bytesToHumanSize Double.negInf = "0.0" := by
  have e2 : b / 1024 / 1024 = b / 1024 ^ 2 := by ring
  have e3 : b / 1024 / 1024 / 1024 = b / 1024 ^ 3 := by ring
  have e4 : b / 1024 / 1024 / 1024 / 1024 = b / 1024 ^ 4 := by ring
  have n0 : ¬ ((1024 : ℚ) = 0) := by norm_num
  refine ⟨?_, ?_, ?_, ?_, ?_, number_one_decimal b, by rfl⟩
  · intro h
    simp only [bytesToHumanSize, Double.lt, h, decide_True, if_true]
  · rintro ⟨h1, h2⟩
    have c1 : ¬ b < 1 / 100000 := not_lt.mpr h1
    have c2 : b < 1024 * 1024 := by linarith
    simp only [bytesToHumanSize, Double.lt, Double.div1024, c1, c2, n0, decide_True, decide_False,
      if_true, if_false, Bool.false_eq_true]
  · rintro ⟨h1, h2⟩
    have c1 : ¬ b < 1 / 100000 := by
      have : (1 : ℚ) / 100000 ≤ 1024 ^ 2 := by norm_num
      exact not_lt.mpr (le_trans this h1)
    have c2 : ¬ b < 1024 * 1024 := by
      have : (1024 : ℚ) * 1024 = 1024 ^ 2 := by norm_num
      rw [this]; exact not_lt.mpr h1
    have c3 : b < 1024 * 1024 * 1024 := by linarith
    simp only [bytesToHumanSize, Double.lt, Double.div1024, c1, c2, c3, n0, e2, decide_True,
      decide_False, if_true, if_false, Bool.false_eq_true]
  · rintro ⟨h1, h2⟩
    have c1 : ¬ b < 1 / 100000 := by
      have : (1 : ℚ) / 100000 ≤ 1024 ^ 3 := by norm_num
      exact not_lt.mpr (le_trans this h1)
    have c2 : ¬ b < 1024 * 1024 := by
      have : (1024 : ℚ) * 1024 ≤ 1024 ^ 3 := by norm_num
      exact not_lt.mpr (le_trans this h1)
    have c3 : ¬ b < 1024 * 1024 * 1024 := by
      have : (1024 : ℚ) * 1024 * 1024 = 1024 ^ 3 := by norm_num
      rw [this]; exact not_lt.mpr h1
    have c4 : b < 1024 * 1024 * 1024 * 1024 := by linarith
    simp only [bytesToHumanSize, Double.lt, Double.div1024, c1, c2, c3, c4, n0, e3, decide_True,
      decide_False, if_true, if_false, Bool.false_eq_true]
  · intro h1
    have c1 : ¬ b < 1 / 100000 := by
      have : (1 : ℚ) / 100000 ≤ 1024 ^ 4 := by norm_num
      exact not_lt.mpr (le_trans this h1)
    have c2 : ¬ b < 1024 * 1024 := by
      have : (1024 : ℚ) * 1024 ≤ 1024 ^ 4 := by norm_num
      exact not_lt.mpr (le_trans this h1)
    have c3 : ¬ b < 1024 * 1024 * 1024 := by
      have : (1024 : ℚ) * 1024 * 1024 ≤ 1024 ^ 4 := by norm_num
      exact not_lt.mpr (le_trans this h1)
    have c4 : ¬ b < 1024 * 1024 * 1024 * 1024 := by
      have : (1024 : ℚ) * 1024 * 1024 * 1024 = 1024 ^ 4 := by norm_num
      rw [this]; exact not_lt.mpr h1
    simp only [bytesToHumanSize, Double.lt, Double.div1024, c1, c2, c3, c4, n0, e4, decide_True,
      decide_False, if_true, if_false, Bool.false_eq_true]

/-- One half is printed as `0.5`. -/
theorem number_half : number (Double.fin (512 / 1024)) 1 = "0.5" := by
  have hr : roundedUnits (512 / 1024) 1 = 5 := by
    unfold roundedUnits
    norm_num
    rfl
  rw [number_one_decimal _ (by norm_num), hr]
  decide

/-- C12 at 512 bytes ("0.5 KB", there is no plain-byte unit) and at -3. -/
theorem bytesToHumanSize_ladder_witness :
    bytesToHumanSize (Double.fin 512) = "0.5 KB" ∧
    bytesToHumanSize (Double.fin (-3)) = "0.0" := by
  refine ⟨?_, (bytesToHumanSize_ladder (-3)).1 (by norm_num)⟩
  rw [(bytesToHumanSize_ladder 512).2.1 ⟨by norm_num, by norm_num⟩, number_half]
  decide

/-! ## C13: decimal degrees -/

/-- The value of one component after `ratherZeroThanNaN`. -/
theorem component_value (toDouble : String → Double) (p : String) (v : Double)
    (h : ComponentValue toDouble p v) :
    ratherZeroThanNaN (convertRationalNumber toDouble p) = v := by
  cases h with
  | malformed _ hm =>
    rw [convertRationalNumber_malformed toDouble p hm]
    rfl
  | zeroDenominator n d hn hd hz =>
    have hs : split (n ++ "/" ++ d) '/' = [n, d] := split_two '/' n d hn hd
    have hne : ¬ (n ++ "/" ++ d).data = [] := by simp [String.data_append]
    simp only [convertRationalNumber, hne, hs, hz, if_false]
    simp [Double.eqZero, ratherZeroThanNaN, Double.isNaN]
  | quotient n d a b hn hd ha hb hne0 =>
    have hs : split (n ++ "/" ++ d) '/' = [n, d] := split_two '/' n d hn hd
    have hne : ¬ (n ++ "/" ++ d).data = [] := by simp [String.data_append]
    simp only [convertRationalNumber, hne, hs, ha, hb, if_false]
    simp [Double.eqZero, Double.div, hne0, ratherZeroThanNaN, roundToDouble_isNaN]

/-- C13: for a text of three components, `convertCoordinateString` returns the
double sum `v0 + v1 / 60 + v2 / 3600`, where a component `n/d` with a non-zero
denominator stands for the double quotient, and a component that is malformed
or has a zero denominator stands for 0 while the other components are still
counted. -/
theorem convertCoordinateString_decimal_degrees (toDouble : String → Double)
    (p0 p1 p2 : String) (v0 v1 v2 : Double)
    (c0 : ',' ∉ p0.data) (c1 : ',' ∉ p1.data) (c2 : ',' ∉ p2.data)
    (h0 : ComponentValue toDouble p0 v0) (h1 : ComponentValue toDouble p1 v1)
    (h2 : ComponentValue toDouble p2 v2) :
    convertCoordinateString toDouble (p0 ++ "," ++ p1 ++ "," ++ p2) =
      (v0.add (v1.div (Double.fin 60))).add (v2.div (Double.fin 3600)) := by
  have hs : split (p0 ++ "," ++ p1 ++ "," ++ p2) ',' = [p0, p1, p2] :=
    split_three ',' p0 p1 p2 c0 c1 c2
  simp only [convertCoordinateString, hs, component_value toDouble _ _ h0,
    component_value toDouble _ _ h1, component_value toDouble _ _ h2]

/-- The conversion of some plain numerals. -/
theorem decimalToDouble_examples :
    decimalToDouble "50" = Double.fin 50 ∧ decimalToDouble "30" = Double.fin 30 ∧
    decimalToDouble "18" = Double.fin 18 ∧ decimalToDouble "1" = Double.fin 1 ∧
    decimalToDouble "0" = Double.fin 0 := by
  refine ⟨?_, ?_, ?_, ?_, ?_⟩ <;>
    simp [decimalToDouble, unsignedDecimal, splitOnChar, digitsValue]

/-- The double arithmetic of 50 degrees, 30 minutes and 18 seconds: the result
is the double 50.505000000000003. -/
theorem degrees_50_30_18 :
    (((Double.fin 50).div (Double.fin 1)).add
        (((Double.fin 30).div (Double.fin 1)).div (Double.fin 60))).add
      (((Double.fin 18).div (Double.fin 1)).div (Double.fin 3600)) =
      Double.fin (7107946849385841 / 2 ^ 47) := by
  have q50 : (Double.fin 50).div (Double.fin 1) = Double.fin 50 := by
    rw [div_eq_dyadic 50 1 50 0 (by norm_num) (by norm_num) (by decide) (by decide)
      (by norm_num [abs_lt])]
    norm_num
  have q30 : (Double.fin 30).div (Double.fin 1) = Double.fin 30 := by
    rw [div_eq_dyadic 30 1 30 0 (by norm_num) (by norm_num) (by decide) (by decide)
      (by norm_num [abs_lt])]
    norm_num
  have q18 : (Double.fin 18).div (Double.fin 1) = Double.fin 18 := by
    rw [div_eq_dyadic 18 1 18 0 (by norm_num) (by norm_num) (by decide) (by decide)
      (by norm_num [abs_lt])]
    norm_num
  have mins : (Double.fin 30).div (Double.fin 60) = Double.fin (1 / 2) := by
    rw [div_eq_dyadic 30 60 1 (-1) (by norm_num) (by norm_num) (by decide) (by decide)
      (by norm_num [abs_lt])]
    norm_num
  have secs : (Double.fin 18).div (Double.fin 3600) =
      Double.fin (5764607523034235 / 2 ^ 60) := by
    simp only [Double.div]
    rw [if_neg (by norm_num)]
    rw [roundToDouble_pos _ (-8) (-60) 5764607523034235 (by norm_num) (by norm_num)
      (by decide) (by norm_num [abs_lt]) (by norm_num [abs_lt])]
    norm_num
  have s1 : (Double.fin 50).add (Double.fin (1 / 2)) = Double.fin (101 / 2) := by
    show roundToDouble (50 + 1 / 2) = _
    rw [show (50 + 1 / 2 : ℚ) = ((101 : ℤ) : ℚ) * 2 ^ (-1 : ℤ) from by norm_num,
      roundToDouble_dyadic 101 (-1) (by decide) (by decide) (by norm_num [abs_lt])]
    norm_num
  have s2 : (Double.fin (101 / 2)).add (Double.fin (5764607523034235 / 2 ^ 60)) =
      Double.fin (7107946849385841 / 2 ^ 47) := by
    show roundToDouble (101 / 2 + 5764607523034235 / 2 ^ 60) = _
    rw [roundToDouble_pos _ 5 (-47) 7107946849385841 (by norm_num) (by norm_num)
      (by decide) (by norm_num [abs_lt]) (by norm_num [abs_lt])]
    norm_num
  rw [q50, q30, q18, mins, secs, s1, s2]

/-- C13 at `50/1,30/1,18/1`, which gives the double 50.505000000000003, and at
`50/1,x,18/0`, where only the degrees count. -/
theorem convertCoordinateString_decimal_degrees_witness :
    convertCoordinateString decimalToDouble
        (("50" ++ "/" ++ "1") ++ "," ++ ("30" ++ "/" ++ "1") ++ "," ++ ("18" ++ "/" ++ "1")) =
      Double.fin (7107946849385841 / 2 ^ 47) ∧
    convertCoordinateString decimalToDouble
        (("50" ++ "/" ++ "1") ++ "," ++ "x" ++ "," ++ ("18" ++ "/" ++ "0")) =
      Double.fin 50 := by
  constructor
  · rw [convertCoordinateString_decimal_degrees decimalToDouble _ _ _ _ _ _
      (by decide) (by decide) (by decide)
      (ComponentValue.quotient "50" "1" 50 1 (by decide) (by decide)
        decimalToDouble_examples.1 decimalToDouble_examples.2.2.2.1 (by norm_num))
      (ComponentValue.quotient "30" "1" 30 1 (by decide) (by decide)
        decimalToDouble_examples.2.1 decimalToDouble_examples.2.2.2.1 (by norm_num))
      (ComponentValue.quotient "18" "1" 18 1 (by decide) (by decide)
        decimalToDouble_examples.2.2.1 decimalToDouble_examples.2.2.2.1 (by norm_num))]
    exact degrees_50_30_18
  · rw [convertCoordinateString_decimal_degrees decimalToDouble _ _ _ _ _ _
      (by decide) (by decide) (by decide)
      (ComponentValue.quotient "50" "1" 50 1 (by decide) (by decide)
        decimalToDouble_examples.1 decimalToDouble_examples.2.2.2.1 (by norm_num))
      (ComponentValue.malformed "x" (Or.inr (by decide)))
      (ComponentValue.zeroDenominator "18" "0" (by decide) (by decide)
        decimalToDouble_examples.2.2.2.2)]
    have q50 : (Double.fin 50).div (Double.fin 1) = Double.fin 50 := by
      rw [div_eq_dyadic 50 1 50 0 (by norm_num) (by norm_num) (by decide) (by decide)
        (by norm_num [abs_lt])]
      norm_num
    have z60 : (Double.fin 0).div (Double.fin 60) = Double.fin 0 := by
      simp [Double.div, roundToDouble]
    have z3600 : (Double.fin 0).div (Double.fin 3600) = Double.fin 0 := by
      simp [Double.div, roundToDouble]
    have a0 : (Double.fin 50).add (Double.fin 0) = Double.fin 50 := by
      show roundToDouble (50 + 0) = _
      rw [roundToDouble_of_eq_int _ 50 (by norm_num) (by decide)]
      norm_num
    rw [q50, z60, z3600, a0, a0]


/-! ## QString::arg on the templates of the source -/

/-- The template of a name in bold. -/
theorem arg_bold (a : String) : arg "<b>%1</b>" a = "<b>" ++ a ++ "</b>" := by
  simp [arg, minEscape, replaceEscapes, escapeAt, escapeNumber, digitValue]
  exact String.ext (by simp [String.data_append])

/-- The first call of the chain on the template of a namespace and name. -/
theorem arg_namespace_template (a : String) : arg "%1/<b>%2</b>" a = a ++ "/<b>%2</b>" := by
  simp [arg, minEscape, replaceEscapes, escapeAt, escapeNumber, digitValue]
  exact String.ext (by simp [String.data_append])

/-- The first call of the chain on the template of a path. -/
theorem arg_path_template (a : String) : arg "%1/%2" a = a ++ "/%2" := by
  simp [arg, minEscape, replaceEscapes, escapeAt, escapeNumber, digitValue]
  exact String.ext (by simp [String.data_append])

/-- The template of an editor component. -/
theorem arg_editor_template (a : String) :
    arg "../editor/input%1.qml" a = "../editor/input" ++ a ++ ".qml" := by
  simp [arg, minEscape, replaceEscapes, escapeAt, escapeNumber, digitValue]
  exact String.ext (by simp [String.data_append])

/-- A text without `%` has no place marker: the scan passes over it. -/
theorem minEscape_append (xs ys : List Char) (h : '%' ∉ xs) :
    minEscape 0 (xs ++ ys) = minEscape 0 ys := by
  induction xs with
  | nil => rfl
  | cons c cs ih =>
    have hc : ¬ c = '%' := fun e => h (by simp [e])
    have hcs : '%' ∉ cs := fun e => h (by simp [e])
    simp [minEscape, hc, ih hcs]

/-- A text without `%` is copied as it is. -/
theorem replaceEscapes_append (lowest : Nat) (a xs ys : List Char) (h : '%' ∉ xs) :
    replaceEscapes lowest a 0 0 (xs ++ ys) = xs ++ replaceEscapes lowest a 0 0 ys := by
  induction xs with
  | nil => rfl
  | cons c cs ih =>
    have hc : ¬ c = '%' := fun e => h (by simp [e])
    have hcs : '%' ∉ cs := fun e => h (by simp [e])
    simp [replaceEscapes, hc, ih hcs]

/-- The second call of the chain, on a first argument without `%`. -/
theorem arg_after_path (p a : String) (h : '%' ∉ p.data) :
    arg (p ++ "/%2") a = p ++ "/" ++ a := by
  have hd : (p ++ "/%2").data = p.data ++ ['/', '%', '2'] := by simp [String.data_append]
  have hm : minEscape 0 (p.data ++ ['/', '%', '2']) = some 2 := by
    rw [minEscape_append _ _ h]
    simp [minEscape, escapeAt, escapeNumber, digitValue]
  simp only [arg, hd, hm, replaceEscapes_append _ _ _ _ h]
  exact String.ext (by
    simp [String.data_append, replaceEscapes, escapeAt, escapeNumber, digitValue])

/-- The second call of the chain, on a namespace without `%`. -/
theorem arg_after_namespace (p a : String) (h : '%' ∉ p.data) :
    arg (p ++ "/<b>%2</b>") a = p ++ "/<b>" ++ a ++ "</b>" := by
  have hd : (p ++ "/<b>%2</b>").data = p.data ++ ['/', '<', 'b', '>', '%', '2', '<', '/', 'b', '>'] := by
    simp [String.data_append]
  have hm : minEscape 0 (p.data ++ ['/', '<', 'b', '>', '%', '2', '<', '/', 'b', '>']) = some 2 := by
    rw [minEscape_append _ _ h]
    simp [minEscape, escapeAt, escapeNumber, digitValue]
  simp only [arg, hd, hm, replaceEscapes_append _ _ _ _ h]
  exact String.ext (by
    simp [String.data_append, replaceEscapes, escapeAt, escapeNumber, digitValue])

/-! ## C17: the remainder after the prefix -/

/-- Dropping the rest of a found occurrence. -/
theorem removeAllAux_skip (before xs r : List Char) :
    removeAllAux before xs.length (xs ++ r) = removeAllAux before 0 r := by
  induction xs with
  | nil => rfl
  | cons c cs ih => simpa [removeAllAux] using ih

/-- For a path `p ++ r` that does not exist and has no `file://` in front,
`getRelativePath` returns `r` with every further occurrence of the non-empty
prefix `p` removed; that is `r` only when `p` does not occur in `r`. -/
theorem getRelativePath_prefix_removed (fileExists : String → Bool)
    (canonicalPath : String → String) (p r : String)
    (hp : p.data ≠ []) (he : fileExists (p ++ r) = false)
    (hf : startsWith (p ++ r) "file://" = false) :
    getRelativePath fileExists canonicalPath (p ++ r) p = remove r p := by
  have hs : startsWith (p ++ r) p = true := by
    simp [startsWith, String.data_append]
  have hrem : remove (p ++ r) p = remove r p := by
    simp only [remove, hp, if_false, String.data_append]
    congr 1
    cases hpd : p.data with
    | nil => exact absurd hpd hp
    | cons c cs =>
      have hpre : (c :: cs).isPrefixOf (c :: (cs ++ r.data)) = true := by
        simp
      rw [List.cons_append]
      simp only [removeAllAux, hpre, if_true, List.length_cons, Nat.add_sub_cancel]
      exact removeAllAux_skip (c :: cs) cs r.data
  simp [getRelativePath, hp, he, hf, hs, hrem]

/-- C17 at a failing input: for the path `/data/data/x.jpg`, which does not
exist and has no `file://` in front, and the prefix `/data`, `getRelativePath`
removes both occurrences of the prefix and returns `/x.jpg`, not the remainder
`/data/x.jpg`. -/
theorem getRelativePath_removes_every_prefix (canonicalPath : String → String) :
    "/data/data/x.jpg" = "/data" ++ "/data/x.jpg" ∧
    startsWith "/data/data/x.jpg" "file://" = false ∧
    getRelativePath (fun _ => false) canonicalPath "/data/data/x.jpg" "/data" = "/x.jpg" ∧
    getRelativePath (fun _ => false) canonicalPath "/data/data/x.jpg" "/data"
      ≠ "/data/x.jpg" := by
  have h : getRelativePath (fun _ => false) canonicalPath "/data/data/x.jpg" "/data"
      = "/x.jpg" := by
    simp [getRelativePath]
    decide
  refine ⟨by decide, by decide, h, ?_⟩
  rw [h]
  decide

/-! ## C19: project names -/

/-- A full name without `/` is set in bold as a whole. -/
theorem formatProjectName_no_slash (s : String) (h : '/' ∉ s.data) :
    formatProjectName s = "<b>" ++ s ++ "</b>" := by
  have hc : containsChar s '/' = false := by
    simp [containsChar, h]
  simp only [formatProjectName, hc, arg_bold]
  simp

/-- A name after an empty namespace is set in bold, the `/` dropped. -/
theorem formatProjectName_empty_namespace (nm : String) (h : '/' ∉ nm.data) :
    formatProjectName ("" ++ "/" ++ nm) = "<b>" ++ nm ++ "</b>" := by
  have hs : split ("" ++ "/" ++ nm) '/' = ["", nm] := split_two '/' "" nm (by simp) h
  have hc : containsChar ("" ++ "/" ++ nm) '/' = true := by
    simp [containsChar, String.data_append]
  simp only [formatProjectName, hc, hs, arg_bold]
  simp

/-- A namespace without `%` stays plain and the name is set in bold. -/
theorem formatProjectName_plain_namespace (ns nm : String) (hns : '/' ∉ ns.data)
    (hnm : '/' ∉ nm.data) (hne : ns.data ≠ []) (hpc : '%' ∉ ns.data) :
    formatProjectName (ns ++ "/" ++ nm) = ns ++ "/<b>" ++ nm ++ "</b>" := by
  have hs : split (ns ++ "/" ++ nm) '/' = [ns, nm] := split_two '/' ns nm hns hnm
  have hc : containsChar (ns ++ "/" ++ nm) '/' = true := by
    simp [containsChar, String.data_append]
  simp only [formatProjectName, hc, hs, arg_namespace_template]
  simp [hne, arg_after_namespace ns nm hpc]

/-- C19 at a failing input: for the full name `a%1/b` the second call of the
`arg` chain replaces the `%1` of the namespace, and `formatProjectName` returns
`ab/<b>%2</b>`, not `a%1/<b>b</b>`. -/
theorem formatProjectName_marker_in_namespace :
    formatProjectName ("a%1" ++ "/" ++ "b") = "ab/<b>%2</b>" ∧
    formatProjectName ("a%1" ++ "/" ++ "b") ≠ "a%1" ++ "/<b>" ++ "b" ++ "</b>" := by
  decide

/-! ## C18: absolute paths -/

/-- A prefix without `%` is put in front of the path, with a `/` between. -/
theorem getAbsolutePath_plain_prefix (path p : String) (hpc : '%' ∉ p.data) :
    getAbsolutePath path p = if p.data = [] then path else p ++ "/" ++ path := by
  unfold getAbsolutePath
  split_ifs
  · rfl
  · rw [arg_path_template, arg_after_path p path hpc]

/-- The prefix `resolvePath` chooses: by the mode, and for mode 2 by the
expression, the default root and the home path. -/
theorem resolvePath_prefix (strToInt : String → Int) (evaluateExpression : String → String)
    (path homePath : String) (config : QVariantMap) :
    resolvePath strToInt evaluateExpression path homePath config =
      getAbsolutePath path
        (if (mapValue config "RelativeStorage").toInt strToInt = 1 then homePath
         else if (mapValue config "RelativeStorage").toInt strToInt = 2 then
           resolveTargetDir evaluateExpression homePath config
         else "") := by
  rfl

/-- C18 at a failing input: in mode 1 with the home path `/home/%1` and the
path `x.jpg`, the second call of the `arg` chain replaces the `%1` of the home
path, and `resolvePath` returns `/home/x.jpg/%2`, not `/home/%1/x.jpg`. -/
theorem resolvePath_marker_in_home (strToInt : String → Int)
    (evaluateExpression : String → String) :
    resolvePath strToInt evaluateExpression "x.jpg" "/home/%1"
        [("RelativeStorage", QVariant.int 1)] = "/home/x.jpg/%2" ∧
    resolvePath strToInt evaluateExpression "x.jpg" "/home/%1"
        [("RelativeStorage", QVariant.int 1)] ≠ "/home/%1" ++ "/" ++ "x.jpg" := by
  have h : resolvePath strToInt evaluateExpression "x.jpg" "/home/%1"
      [("RelativeStorage", QVariant.int 1)] = "/home/x.jpg/%2" := by
    simp [resolvePath, resolvePrefixForRelativePath, mapValue, QVariant.toInt, getAbsolutePath,
      arg_path_template]
    decide
  rw [h]
  exact ⟨rfl, by decide⟩

/-! ## C14, C15: editor widgets -/

/-- `mapContains` finds a key exactly when a lookup of the key succeeds. -/
theorem mapContains_eq_lookup (m : QVariantMap) (key : String) :
    mapContains m key = (List.lookup key m).isSome := by
  induction m with
  | nil => rfl
  | cons e es ih =>
    obtain ⟨k, v⟩ := e
    by_cases h : k = key
    · subst h
      simp [mapContains, List.lookup]
    · have h' : (key == k) = false := by
        simp only [beq_eq_false_iff_ne, ne_eq]
        exact fun e => h e.symm
      have h'' : (k == key) = false := by simpa using h
      simp only [mapContains, List.any_cons, h'', Bool.false_or, List.lookup, h'] at ih ⊢
      exact ih

/-- `mapValue` is the first value stored under the key, an invalid variant
when there is none. -/
theorem mapValue_eq_lookup (m : QVariantMap) (key : String) :
    mapValue m key = (List.lookup key m).getD QVariant.invalid := by
  induction m with
  | nil => rfl
  | cons e es ih =>
    obtain ⟨k, v⟩ := e
    by_cases h : k = key
    · subst h
      simp [mapValue, List.lookup, List.find?]
    · have h' : (key == k) = false := by
        simp only [beq_eq_false_iff_ne, ne_eq]
        exact fun e => h e.symm
      have h'' : (k == key) = false := by simpa using h
      simp only [mapValue, List.find?, h'', List.lookup, h'] at ih ⊢
      exact ih

/-- `containsInsensitive` holds exactly when the needle is a contiguous part of
the text put in lower case. -/
theorem containsInsensitive_iff (s needle : String) :
    containsInsensitive s needle = true ↔
      List.IsInfix needle.data (s.data.map Char.toLower) := by
  simp only [containsInsensitive, List.any_eq_true, List.mem_tails, List.isPrefixOf_iff_prefix]
  constructor
  · rintro ⟨t, hsuf, hpre⟩
    exact List.infix_iff_prefix_suffix.mpr ⟨t, hpre, hsuf⟩
  · intro h
    obtain ⟨t, hpre, hsuf⟩ := List.infix_iff_prefix_suffix.mp h
    exact ⟨t, hsuf, hpre⟩

/-- C14: `getEditorComponentSource` returns `../editor/input<X>.qml` with `X`
chosen by this precedence: for the widget `range`, rangeslider when the style
of the configuration is Slider, rangeeditable when it is SpinBox and textedit
otherwise, also for a qrcode field; otherwise qrcodereader for a field whose
name or alias contains `qrcode` in any letter case; otherwise, for the widget
`textedit`, texteditmultiline when the configuration has a true IsMultiline
and textedit when not; otherwise the name itself for valuemap, valuerelation,
checkbox, externalresource, datetime, relation and relationreference; textedit
for every other name. -/
theorem getEditorComponentSource_precedence (variantIs : QVariant → String → Bool)
    (widgetName : String) (config : QVariantMap) (field : QgsField) :
    (widgetName = "range" →
      (∀ v, List.lookup "Style" config = some v → variantIs v "Slider" = true →
        getEditorComponentSource variantIs widgetName config field =
          "../editor/inputrangeslider.qml") ∧
      (∀ v, List.lookup "Style" config = some v → variantIs v "Slider" = false →
        variantIs v "SpinBox" = true →
        getEditorComponentSource variantIs widgetName config field =
          "../editor/inputrangeeditable.qml") ∧
      ((List.lookup "Style" config = none ∨
          ∃ v, List.lookup "Style" config = some v ∧ variantIs v "Slider" = false ∧
            variantIs v "SpinBox" = false) →
        getEditorComponentSource variantIs widgetName config field =
          "../editor/inputtextedit.qml")) ∧
    (widgetName ≠ "range" →
      (List.IsInfix "qrcode".data (field.name.data.map Char.toLower) ∨
        List.IsInfix "qrcode".data (field.aliasName.data.map Char.toLower)) →
      getEditorComponentSource variantIs widgetName config field =
        "../editor/inputqrcodereader.qml") ∧
    (¬ (List.IsInfix "qrcode".data (field.name.data.map Char.toLower) ∨
        List.IsInfix "qrcode".data (field.aliasName.data.map Char.toLower)) →
      (widgetName = "textedit" →
        ((∃ v, List.lookup "IsMultiline" config = some v ∧ v.toBool = true) →
          getEditorComponentSource variantIs widgetName config field =
            "../editor/inputtexteditmultiline.qml") ∧
        ((List.lookup "IsMultiline" config = none ∨
            ∃ v, List.lookup "IsMultiline" config = some v ∧ v.toBool = false) →
          getEditorComponentSource variantIs widgetName config field =
            "../editor/inputtextedit.qml")) ∧
      (widgetName ∈ ["valuemap", "valuerelation", "checkbox", "externalresource", "datetime",
          "relation", "relationreference"] →
        getEditorComponentSource variantIs widgetName config field =
          "../editor/input" ++ widgetName ++ ".qml") ∧
      (widgetName ∉ ["range", "textedit", "valuemap", "valuerelation", "checkbox",
          "externalresource", "datetime", "relation", "relationreference"] →
        getEditorComponentSource variantIs widgetName config field =
          "../editor/inputtextedit.qml")) := by
  have hq : (containsInsensitive field.name "qrcode" = true ∨
      containsInsensitive field.aliasName "qrcode" = true) ↔
      (List.IsInfix "qrcode".data (field.name.data.map Char.toLower) ∨
        List.IsInfix "qrcode".data (field.aliasName.data.map Char.toLower)) := by
    rw [containsInsensitive_iff, containsInsensitive_iff]
  have e1 : arg "../editor/input%1.qml" "rangeslider" = "../editor/inputrangeslider.qml" := by
    decide
  have e2 : arg "../editor/input%1.qml" "rangeeditable" = "../editor/inputrangeeditable.qml" := by
    decide
  have e3 : arg "../editor/input%1.qml" "textedit" = "../editor/inputtextedit.qml" := by
    decide
  have e4 : arg "../editor/input%1.qml" "qrcodereader" = "../editor/inputqrcodereader.qml" := by
    decide
  have e5 : arg "../editor/input%1.qml" "texteditmultiline" =
      "../editor/inputtexteditmultiline.qml" := by
    decide
  refine ⟨?_, ?_, ?_⟩
  · intro hr
    refine ⟨?_, ?_, ?_⟩
    · intro v hv hs
      simp [getEditorComponentSource, hr, mapContains_eq_lookup, mapValue_eq_lookup, hv, hs, e1]
    · intro v hv hs hb
      simp [getEditorComponentSource, hr, mapContains_eq_lookup, mapValue_eq_lookup, hv, hs, hb,
        e2]
    · rintro (hn | ⟨v, hv, hs, hb⟩)
      · simp [getEditorComponentSource, hr, mapContains_eq_lookup, hn, e3]
      · simp [getEditorComponentSource, hr, mapContains_eq_lookup, mapValue_eq_lookup, hv, hs,
          hb, e3]
  · intro hr hqr
    have hqr' := hq.mpr hqr
    simp only [getEditorComponentSource, hr, if_false, hqr', if_true, e4]
  · intro hqr
    have hqr' : ¬ (containsInsensitive field.name "qrcode" = true ∨
        containsInsensitive field.aliasName "qrcode" = true) := fun h => hqr (hq.mp h)
    refine ⟨?_, ?_, ?_⟩
    · intro ht
      subst ht
      have hr : ¬ "textedit" = "range" := by decide
      refine ⟨?_, ?_⟩
      · rintro ⟨v, hv, hb⟩
        simp only [getEditorComponentSource, hr, if_false, hqr', if_true,
          mapValue_eq_lookup, hv, Option.getD_some, hb, e5]
      · rintro (hn | ⟨v, hv, hb⟩)
        · simp only [getEditorComponentSource, hr, if_false, hqr', if_true,
            mapValue_eq_lookup, hn, Option.getD_none, QVariant.toBool, e3]
          simp
        · simp only [getEditorComponentSource, hr, if_false, hqr', if_true,
            mapValue_eq_lookup, hv, Option.getD_some, hb, e3]
          simp
    · intro hm
      have hr : ¬ widgetName = "range" := by
        intro h
        rw [h] at hm
        exact absurd hm (by decide)
      have ht : ¬ widgetName = "textedit" := by
        intro h
        rw [h] at hm
        exact absurd hm (by decide)
      have hc : ["textedit", "valuemap", "valuerelation", "checkbox", "externalresource",
          "datetime", "range", "relation", "relationreference"].contains widgetName = true := by
        simp only [List.mem_cons, List.mem_singleton, List.not_mem_nil, or_false] at hm
        simp only [List.contains_cons, List.contains_nil, Bool.or_eq_true, beq_iff_eq,
          Bool.or_false]
        tauto
      simp only [getEditorComponentSource, hr, if_false, hqr', ht, hc, if_true,
        arg_editor_template]
    · intro hm
      have hr : ¬ widgetName = "range" := fun h => hm (by simp [h])
      have ht : ¬ widgetName = "textedit" := fun h => hm (by simp [h])
      have hc : ["textedit", "valuemap", "valuerelation", "checkbox", "externalresource",
          "datetime", "range", "relation", "relationreference"].contains widgetName = false := by
        simp only [List.mem_cons, List.mem_singleton, List.not_mem_nil, or_false] at hm
        rw [Bool.eq_false_iff]
        simp only [ne_eq, List.contains_cons, List.contains_nil, Bool.or_eq_true, beq_iff_eq,
          Bool.or_false]
        tauto
      simp only [getEditorComponentSource, hr, if_false, hqr', ht, hc, e3]
      simp

/-- C14 on every branch, with texts compared as texts: a Slider range on a
qrcode field, a SpinBox range, a range without style, a qrcode alias in mixed
case, a multi-line and a plain text editor, a datetime widget and an unknown
widget. -/
theorem getEditorComponentSource_precedence_witness :
    getEditorComponentSource variantIsText "range" [("Style", QVariant.string "Slider")]
      ⟨"QRCode_1", "", FieldType.String⟩ = "../editor/inputrangeslider.qml" ∧
    getEditorComponentSource variantIsText "range"
      [("Precision", QVariant.string "0"), ("Style", QVariant.string "SpinBox")]
      ⟨"height", "", FieldType.Double⟩ = "../editor/inputrangeeditable.qml" ∧
    getEditorComponentSource variantIsText "range" []
      ⟨"height", "", FieldType.Double⟩ = "../editor/inputtextedit.qml" ∧
    getEditorComponentSource variantIsText "valuemap" []
      ⟨"photo", "Scan QrCode", FieldType.String⟩ = "../editor/inputqrcodereader.qml" ∧
    getEditorComponentSource variantIsText "textedit" [("IsMultiline", QVariant.bool true)]
      ⟨"notes", "", FieldType.String⟩ = "../editor/inputtexteditmultiline.qml" ∧
    getEditorComponentSource variantIsText "textedit" []
      ⟨"notes", "", FieldType.String⟩ = "../editor/inputtextedit.qml" ∧
    getEditorComponentSource variantIsText "datetime" []
      ⟨"seen", "", FieldType.DateTime⟩ = "../editor/inputdatetime.qml" ∧
    getEditorComponentSource variantIsText "slider" []
      ⟨"seen", "", FieldType.DateTime⟩ = "../editor/inputtextedit.qml" :=
  ⟨((getEditorComponentSource_precedence variantIsText "range"
      [("Style", QVariant.string "Slider")] ⟨"QRCode_1", "", FieldType.String⟩).1 rfl).1
      (QVariant.string "Slider") rfl rfl,
   ((getEditorComponentSource_precedence variantIsText "range"
      [("Precision", QVariant.string "0"), ("Style", QVariant.string "SpinBox")]
      ⟨"height", "", FieldType.Double⟩).1 rfl).2.1 (QVariant.string "SpinBox") rfl rfl rfl,
   ((getEditorComponentSource_precedence variantIsText "range" []
      ⟨"height", "", FieldType.Double⟩).1 rfl).2.2 (Or.inl rfl),
   (getEditorComponentSource_precedence variantIsText "valuemap" []
      ⟨"photo", "Scan QrCode", FieldType.String⟩).2.1 (by decide) (Or.inr (by decide)),
   (((getEditorComponentSource_precedence variantIsText "textedit"
      [("IsMultiline", QVariant.bool true)] ⟨"notes", "", FieldType.String⟩).2.2
      (by decide)).1 rfl).1 ⟨QVariant.bool true, rfl, rfl⟩,
   (((getEditorComponentSource_precedence variantIsText "textedit" []
      ⟨"notes", "", FieldType.String⟩).2.2 (by decide)).1 rfl).2 (Or.inl rfl),
   ((getEditorComponentSource_precedence variantIsText "datetime" []
      ⟨"seen", "", FieldType.DateTime⟩).2.2 (by decide)).2.1 (by decide),
   ((getEditorComponentSource_precedence variantIsText "slider" []
      ⟨"seen", "", FieldType.DateTime⟩).2.2 (by decide)).2.2 (by decide)⟩

/-- C15: a field named `fid` gets the widget type "Hidden" with an empty
configuration, whatever its data type, the requested widget type and the
additional arguments; another field gets "Range" if it is numeric, else
"DateTime" if it is a date or time, else "CheckBox" if it is boolean, else
"TextEdit"; the default Range configuration is Style "SpinBox", Precision "0",
Min -2147483648, Max 2147483647 and Step 1. -/
theorem getEditorWidgetSetup_default (datetimeFormat : String) (propertyCollection : QVariant)
    (field : QgsField) :
    (field.name = "fid" →
      (∀ (widgetType : String) (additionalArgs : QVariantMap),
        getEditorWidgetSetupFor datetimeFormat propertyCollection field widgetType
          additionalArgs = ⟨"Hidden", []⟩) ∧
      getEditorWidgetSetup datetimeFormat propertyCollection field = ⟨"Hidden", []⟩) ∧
    (field.name ≠ "fid" →
      (getEditorWidgetSetup datetimeFormat propertyCollection field).type =
        if field.isNumeric then "Range"
        else if field.isDateOrTime then "DateTime"
        else if field.type = FieldType.Bool then "CheckBox"
        else "TextEdit") ∧
    (field.name ≠ "fid" → field.isNumeric = true →
      (getEditorWidgetSetup datetimeFormat propertyCollection field).config =
        [("Step", QVariant.int 1), ("Max", QVariant.string "2147483647"),
         ("Min", QVariant.string "-2147483648"), ("Precision", QVariant.string "0"),
         ("Style", QVariant.string "SpinBox")]) := by
  have hfid : field.name = "fid" → ∀ (widgetType : String) (additionalArgs : QVariantMap),
      getEditorWidgetSetupFor datetimeFormat propertyCollection field widgetType
        additionalArgs = ⟨"Hidden", []⟩ := by
    intro h widgetType additionalArgs
    simp only [getEditorWidgetSetupFor, h, if_true]
  refine ⟨?_, ?_, ?_⟩
  · intro h
    refine ⟨hfid h, ?_⟩
    unfold getEditorWidgetSetup
    split_ifs <;> exact hfid h _ _
  · intro h
    unfold getEditorWidgetSetup
    split_ifs <;> simp [getEditorWidgetSetupFor, h]
  · intro h hn
    simp only [getEditorWidgetSetup, hn, if_true, getEditorWidgetSetupFor, h, if_false]
    rfl

/-- C15 at an integer field named `fid` and at a floating-point field named
`height`. -/
theorem getEditorWidgetSetup_default_witness :
    getEditorWidgetSetup "yyyy-MM-dd HH:mm:ss" QVariant.invalid ⟨"fid", "", FieldType.Int⟩
      = ⟨"Hidden", []⟩ ∧
    (getEditorWidgetSetup "yyyy-MM-dd HH:mm:ss" QVariant.invalid
      ⟨"height", "", FieldType.Double⟩).type = "Range" :=
  ⟨((getEditorWidgetSetup_default "yyyy-MM-dd HH:mm:ss" QVariant.invalid
      ⟨"fid", "", FieldType.Int⟩).1 rfl).2,
   ((getEditorWidgetSetup_default "yyyy-MM-dd HH:mm:ss" QVariant.invalid
      ⟨"height", "", FieldType.Double⟩).2.1 (by decide)).trans (by decide)⟩

end InputUtils
